import Mathlib

/-!
Verification of the 1Password document reattacher
(`1password_document_reattacher.py`) against its natural-language
specification.  The script's pure logic (filename sanitation, the
whitelist/blacklist eligibility filter, the cleanup-mode classifier, the
reference-mode matcher, the confirmation gates, the reconciliation
executors and the CSV report) is shallowly embedded below, and the
claims are settled as theorems about this embedding.

The external `op` record store is modelled as a snapshot (`Store`):
listings are lists of records and `item get` / share-link fetches are
partial maps (a `none` models a `CalledProcessError`).  Mutating CLI
invocations become `Cmd` values; whether the store accepts one is an
oracle `Cmd → Bool`.  Interactive `input()` responses are a list of
strings consumed in order.  Temp-directory names and exception texts
are abstracted (Python uses a random temp dir and the exception's
message; neither influences control flow).
-/

set_option autoImplicit false

namespace Reattacher

/-! ## Python string primitives used by the script -/

/-- Backslash character (written via its code point). -/
def bslash : Char := Char.ofNat 92

/-- Single-quote character (written via its code point). -/
def squote : Char := Char.ofNat 39

/-- Python `str.lower()` on a character (ASCII case mapping; the script
only relies on it for case-insensitive substring tests). -/
def pyLowerChar (c : Char) : Char := c.toLower

/-- Boolean test that `w` is an initial segment of `s`. -/
def listPrefOf : List Char → List Char → Bool
  | [], _ => true
  | _ :: _, [] => false
  | a :: as, b :: bs => a == b && listPrefOf as bs

/-- Python `w in s` for strings: substring containment. -/
def pySubstr (w s : List Char) : Bool :=
  match s with
  | [] => w.isEmpty
  | c :: rest => listPrefOf w (c :: rest) || pySubstr w rest

/-- Python `w.lower() in s.lower()` on `String`s. -/
def pyIn (w s : String) : Bool :=
  pySubstr (w.toList.map pyLowerChar) (s.toList.map pyLowerChar)

/-- Characters treated as whitespace by Python's `str.strip()` that can
still be present after the script's `ord(c) > 31` filter (the ASCII
control whitespace has already been removed at every call site). -/
def isPySpace (c : Char) : Bool :=
  c == ' ' || c.toNat ∈ [0x09, 0x0a, 0x0b, 0x0c, 0x0d, 0x1c, 0x1d, 0x1e, 0x1f,
    0x85, 0xa0, 0x1680, 0x2000, 0x2001, 0x2002, 0x2003, 0x2004, 0x2005, 0x2006,
    0x2007, 0x2008, 0x2009, 0x200a, 0x2028, 0x2029, 0x202f, 0x205f, 0x3000]

/-- Python `str.rstrip(chars)`: drop trailing characters in `chars`. -/
def pyRstrip (chars : List Char) (l : List Char) : List Char :=
  (l.reverse.dropWhile (fun c => chars.contains c)).reverse

/-- Python `str.strip()` (no argument): drop whitespace on both ends. -/
def pyStripChars (l : List Char) : List Char :=
  ((l.dropWhile isPySpace).reverse.dropWhile isPySpace).reverse

/-- Python `s.strip()` on `String`. -/
def pyStrip (s : String) : String := String.mk (pyStripChars s.toList)

/-- Python slicing `l[:m]` where `m` may be negative. -/
def pySlicePrefix (m : Int) (l : List Char) : List Char :=
  if 0 ≤ m then l.take m.toNat else l.take (l.length - m.natAbs)

/-- Core of Python `str.split(sep)` for a non-empty separator: cut at
every leftmost non-overlapping occurrence, keeping empty pieces.  Fuel
(the length of the input) makes the recursion structural. -/
def splitOnListFuel (sep : List Char) : Nat → List Char → List (List Char)
  | 0, s => [s]
  | _ + 1, [] => [[]]
  | fuel + 1, c :: rest =>
    if listPrefOf sep (c :: rest) then
      [] :: splitOnListFuel sep fuel ((c :: rest).drop sep.length)
    else
      match splitOnListFuel sep fuel rest with
      | [] => [[]]
      | h :: t => (c :: h) :: t

/-- Python `s.split(sep)` on `String`s (all call sites pass a non-empty
separator). -/
def pySplit (s sep : String) : List String :=
  if sep.toList.isEmpty then [s]
  else (splitOnListFuel sep.toList s.toList.length s.toList).map String.mk

/-- Split a character list at every occurrence of `sep` (Python
`str.split(sep)` for a one-character separator; keeps empty pieces). -/
def splitOnChar (sep : Char) : List Char → List (List Char)
  | [] => [[]]
  | c :: rest =>
    match splitOnChar sep rest with
    | [] => [[]]
    | h :: t => if c == sep then [] :: h :: t else (c :: h) :: t

/-- Split at every occurrence of any character in `seps`
(Python `re.split(r"/|\\", s)`). -/
def splitAnyChar (seps : List Char) : List Char → List (List Char)
  | [] => [[]]
  | c :: rest =>
    match splitAnyChar seps rest with
    | [] => [[]]
    | h :: t => if seps.contains c then [] :: h :: t else (c :: h) :: t

/-- Python `s.replace(old, new)` on character lists: replace every
non-overlapping occurrence, scanning left to right.  Every call site in
the script passes a non-empty `old`; for `old = []` we return `s`
(Python would instead interleave `new`, a case the script never hits).
Implemented with explicit fuel to make termination structural. -/
def pyReplaceFuel (old new : List Char) : Nat → List Char → List Char
  | 0, s => s
  | _ + 1, [] => []
  | fuel + 1, c :: rest =>
    if listPrefOf old (c :: rest) then
      new ++ pyReplaceFuel old new fuel ((c :: rest).drop old.length)
    else c :: pyReplaceFuel old new fuel rest

/-- Python `s.replace(old, new)` (see `pyReplaceFuel`; the fuel
`s.length` suffices because the non-empty pattern consumes at least one
character per replacement). -/
def pyReplace (old new s : List Char) : List Char :=
  if old.isEmpty then s else pyReplaceFuel old new s.length s

/-- Python `s.replace(old, new)` on `String`s. -/
def pyReplaceS (s old new : String) : String :=
  String.mk (pyReplace old.toList new.toList s.toList)

/-- Python `s.replace('"', '').replace("'", "")`: drop both quote characters. -/
def stripQuotes (l : List Char) : List Char :=
  l.filter (fun c => !(c == '"' || c == squote))

/-- Python `','.join(parts)`. -/
def joinComma : List String → String
  | [] => ""
  | [x] => x
  | x :: y :: rest => x ++ "," ++ joinComma (y :: rest)

/-- Python `','.join([f'"{t}"' for t in tags])` used when re-tagging items. -/
def joinTags (tags : List String) : String :=
  joinComma (tags.map (fun t => "\"" ++ t ++ "\""))

/-- The normalisation `reattached_tag.replace('"','').replace("'","").strip()`. -/
def normTag (s : String) : String :=
  String.mk (pyStripChars (stripQuotes s.toList))

/-! ## `sanitize` (lines 26–71 of the source)

`unicodedata.normalize("NFKD", ·)` is an external Unicode-table
transform; it is passed in as the parameter `nfkd` (instantiated with
the identity on the ASCII-only inputs used in concrete theorems, where
NFKD really is the identity). -/

/-- The `blacklist` of characters removed by `sanitize`. -/
def winBlacklist : List Char :=
  [bslash, '/', ':', '*', '?', '"', '<', '>', '|', Char.ofNat 0]

/-- Reserved Windows device names checked by `sanitize`. -/
def winReserved : List (List Char) :=
  ["CON", "PRN", "AUX", "NUL", "COM1", "COM2", "COM3", "COM4", "COM5",
   "COM6", "COM7", "COM8", "COM9", "LPT1", "LPT2", "LPT3", "LPT4", "LPT5",
   "LPT6", "LPT7", "LPT8", "LPT9"].map String.toList

/-- The function `sanitize(filename)` from the source, step for step. -/
def sanitize (nfkd : List Char → List Char) (input : List Char) : List Char :=
  let f1 := input.filter (fun c => !winBlacklist.contains c)
  let f2 := f1.filter (fun c => 31 < c.toNat)
  let f3 := nfkd f2
  let f4 := pyRstrip ['.', ' '] f3
  let f5 := pyStripChars f4
  let f6 := if f5.all (fun c => c == '.') then '_' :: '_' :: f5 else f5
  let f7 := if winReserved.contains f6 then '_' :: '_' :: f6 else f6
  let f8 := if f7.length == 0 then ['_', '_'] else f7
  if f8.length > 255 then
    let lastSeg := (splitAnyChar ['/', bslash] f8).getLastD []
    let parts := splitOnChar '.' lastSeg
    let fa_ext :=
      if parts.length > 1 then
        let e := '.' :: parts.getLastD []
        (pySlicePrefix (-(e.length : Int)) f8, e)
      else (f8, ([] : List Char))
    let fb := if fa_ext.1.length == 0 then ['_', '_'] else fa_ext.1
    let ext2 := if fa_ext.2.length > 254 then fa_ext.2.drop 254 else fa_ext.2
    let maxl : Int := 255 - (ext2.length : Int)
    let fc := pySlicePrefix maxl fb
    let fd := fc ++ ext2
    let fe := pyRstrip ['.', ' '] fd
    if fe.length == 0 then ['_', '_'] else fe
  else f8

/-- The function `sanitize` lifted to `String`s. -/
def sanitizeS (nfkd : List Char → List Char) (s : String) : String :=
  String.mk (sanitize nfkd s.toList)

/-! ## Record-store data model

`item list` returns summaries and `item get` returns details; both are
JSON objects read through `.get(...)` with defaults, so a single record
type with total fields models them (a missing `"files"`/`"tags"` key is
the empty list, a missing `"state"` is `""`). -/

/-- One attached file of an item (`{"id", "name", "size"}`). -/
structure OPFile where
  id : String
  name : String
  size : Nat
deriving DecidableEq, Repr

/-- One structured field of an item; only `type == "REFERENCE"` fields
are consulted, via their `value`, `section.label` and `id`. -/
structure FieldRec where
  type : String
  value : String
  sectionLabel : String
  fieldId : String
deriving DecidableEq, Repr

/-- An item/document record as the script reads it. -/
structure ItemDetail where
  id : String
  title : String
  vaultId : String
  category : String
  state : String
  tags : List String
  files : List OPFile
  fields : List FieldRec
deriving DecidableEq, Repr

/-- A snapshot of the external record store.  `itemList` is the result
of `op item list`; `itemListWithArchive` the result of
`op item list --include-archive` (with the run's `--tags` filter, which
is applied server-side); `getItem` models `op item get` (`none` is a
`CalledProcessError`); `getShareLink` models the share-link fetch. -/
structure Store where
  itemList : List ItemDetail
  itemListWithArchive : List ItemDetail
  getItem : String → Option ItemDetail
  getShareLink : String → Option String

/-! ## Eligibility filter (`allowed_by_white_black_lists`, lines 118–136) -/

/-- Function `allowed_by_white_black_lists(s, whitelist, blacklist, exact_match)`:
returns (whitelist-allowed, blacklist-allowed). -/
def allowed_by_white_black_lists (s : String) (whitelist blacklist : List String)
    (exact_match : Bool) : Bool × Bool :=
  if exact_match then
    (whitelist.isEmpty || whitelist.any (fun w => w == s),
     blacklist.isEmpty || blacklist.all (fun b => b != s))
  else
    (whitelist.isEmpty || whitelist.any (fun w => pyIn w s),
     blacklist.isEmpty || blacklist.all (fun b => !pyIn b s))

/-- Python `False in wbla`: the subject is denied. -/
def wblaDenies (wbla : Bool × Bool) : Bool := !wbla.1 || !wbla.2

/-! ## Events

A flat, ordered log of everything the script appends to its
`reattached/removed/removal_pending/skipped/failed` accumulators; the
dict-of-lists accumulators and the CSV are derived from this log in the
same append order as the source. -/

/-- A queued cleanup-mode fuzzy reattachment
(`doc_j | {"referenced by": candidate_itm}`). -/
structure ReatRec where
  doc : ItemDetail
  refBy : ItemDetail
deriving DecidableEq, Repr

/-- A queued reference-mode reattachment (the dict built at
lines 643–656 of the source). -/
structure MReatRec where
  item : String
  doc : String
  link : String
  refVid : String
  refNameEscaped : String
  refSec : String
  refFieldId : String
  refFileName : String
  itemId : String
  itemVid : String
  itemTags : List String
  docTags : List String
deriving DecidableEq, Repr

/-- One accumulator append.  `reat/rem/pend/skip/fail` are
cleanup-mode (`cleanup_documents`); `mreat/mskip/mfail` are
reference-mode (`main`); `crash` marks an uncaught Python exception. -/
inductive Ev where
  | reat (docId : String) (rec : ReatRec)
  | rem (reason : String) (doc : ItemDetail) (refBy : Option ItemDetail)
  | pend (reason : String) (doc : ItemDetail)
  | skip (reason : String) (title : String)
  | fail (reason : String) (item : String) (document : String)
  | mreat (refId : String) (rec : MReatRec)
  | mskip (reason : String) (item : String) (document : String) (link : String)
  | mfail (reason : String) (item : String) (document : String) (link : String)
  | crash (note : String)
deriving DecidableEq, Repr

/-! ## Cleanup-mode whitelist/blacklist pre-filter (lines 180–193) -/

/-- Processing of one document in the pre-filter loop: given the
`skipped_itms` set so far, emit skip events and extend the set. -/
def filterDoc (itemWL itemBL tagWL tagBL : List String)
    (skipped : List String) (doc : ItemDetail) : List Ev × List String :=
  let wbla := allowed_by_white_black_lists doc.title itemWL itemBL false
  let step1 :=
    if wblaDenies wbla then
      let rs := if !wbla.2 then "item blacklisted" else "item not on whitelist"
      (([Ev.skip rs doc.title] : List Ev), skipped ++ [doc.id])
    else (([] : List Ev), skipped)
  if step1.2.contains doc.id then step1
  else
    match (doc.tags.find? (fun t =>
        wblaDenies (allowed_by_white_black_lists t tagWL tagBL true))) with
    | none => step1
    | some t =>
      let w := allowed_by_white_black_lists t tagWL tagBL true
      let rs := if !w.2 then "item tag blacklisted" else "item tag not on whitelist"
      (step1.1 ++ [Ev.skip rs doc.title], step1.2 ++ [doc.id])

/-- The whole pre-filter loop over `all_docs`. -/
def filterDocs (itemWL itemBL tagWL tagBL : List String) :
    List ItemDetail → List String → List Ev × List String
  | [], skipped => ([], skipped)
  | d :: rest, skipped =>
    let r1 := filterDoc itemWL itemBL tagWL tagBL skipped d
    let r2 := filterDocs itemWL itemBL tagWL tagBL rest r1.2
    (r1.1 ++ r2.1, r2.2)

/-! ## Cleanup-mode classifier (lines 199–301) -/

/-- The test at line 231: the title is NOT shaped like a document from
the 1P v7 upgrade (fewer than two `" - "` parts, or the final part ends
in something that looks like a 1–4 character file extension). -/
def isNotUpgradeNamed (docName : String) : Bool :=
  let parts := pySplit docName " - "
  let last := parts.getLastD ""
  parts.length < 2 ||
    (last.toList.contains '.' &&
      (let ext := (pySplit last ".").getLastD ""
       0 < ext.toList.length && ext.toList.length < 5))

/-- The filter at line 248 selecting REFERENCE fields pointing at the
document. -/
def refsTo (docId : String) (itm : ItemDetail) : List FieldRec :=
  itm.fields.filter (fun r => r.type == "REFERENCE" && r.value == docId)

/-- Archived-reference pass (lines 239–254): scan the matching items;
archived candidates are fetched and their REFERENCE fields checked;
the first archived candidate referencing the document removes it
(`true` in the result means the document was added to
`removed_doc_ids`). -/
def archivedPass (store : Store) (docId : String) (docJ : ItemDetail)
    (docName : String) : List ItemDetail → List Ev × Bool
  | [] => ([], false)
  | c :: rest =>
    if c.state == "ARCHIVED" then
      match store.getItem c.id with
      | none =>
        let r := archivedPass store docId docJ docName rest
        (Ev.fail "failed to get item" c.title docName :: r.1, r.2)
      | some itmJ =>
        if (refsTo docId itmJ).isEmpty then
          archivedPass store docId docJ docName rest
        else
          ([Ev.rem "referenced by archived item" docJ (some c)], true)
    else archivedPass store docId docJ docName rest

/-- Active-overlap pass (lines 261–288): non-archived candidates with at
least one attached file are tested for size match, then name match,
otherwise a single fuzzy reattachment is queued (`true` again means
`removed_doc_ids` gained the document). -/
def activePass (store : Store) (docId : String) (docJ : ItemDetail)
    (docName : String) (docSize : Nat) : List ItemDetail → List Ev × Bool
  | [] => ([], false)
  | c :: rest =>
    if c.state == "ARCHIVED" then activePass store docId docJ docName docSize rest
    else
      match store.getItem c.id with
      | none =>
        let r := activePass store docId docJ docName docSize rest
        (Ev.fail "failed to get item" c.title docName :: r.1, r.2)
      | some itmJ =>
        if itmJ.files.isEmpty then activePass store docId docJ docName docSize rest
        else if itmJ.files.any (fun f => f.size == docSize) then
          ([Ev.rem "already attached to item (size match)" docJ (some c)], true)
        else if itmJ.files.any (fun f =>
            f.name == pyReplaceS docName (" - " ++ c.title) "") then
          ([Ev.rem "already attached to item (name match)" docJ (some c)], true)
        else
          ([Ev.reat docId ⟨docJ, c⟩], false)

/-- Line 166: `all_itms_w_archive` keeps only the non-DOCUMENT records
of the `--include-archive` listing. -/
def allItmsWithArchive (store : Store) : List ItemDetail :=
  store.itemListWithArchive.filter (fun i => i.category != "DOCUMENT")

/-- The non-DOCUMENT items whose stripped title equals the inferred
owner name (line 237, over `all_itms_w_archive` from line 166). -/
def matchingItems (store : Store) (ownerName : String) : List ItemDetail :=
  (allItmsWithArchive store).filter (fun i => pyStrip i.title == ownerName)

/-- Classification of one document in the main cleanup loop
(lines 199–301), given the `removed_doc_ids` set so far.  Returns the
events appended for this document and the updated set. -/
def classifyDoc (store : Store) (confirm : Bool) (removedIds : List String)
    (doc : ItemDetail) : List Ev × List String :=
  match store.getItem doc.id with
  | none => ([Ev.fail "failed to get doc" doc.title doc.title], removedIds)
  | some docJ =>
    let docName := docJ.title
    match docJ.files.filter (fun f => f.id != "") with
    | [] => ([Ev.rem "no files" docJ none], removedIds ++ [doc.id])
    | f0 :: _ =>
      if isNotUpgradeNamed docName then
        ([Ev.skip "not named like document from 1P v7 upgrade" docJ.title], removedIds)
      else
        let ownerName := pyStrip ((pySplit docName " - ").getLastD "")
        let cands := matchingItems store ownerName
        let r1 := archivedPass store doc.id docJ docName cands
        let ids1 := if r1.2 then removedIds ++ [doc.id] else removedIds
        if ids1.contains doc.id then (r1.1, ids1)
        else
          let r2 := activePass store doc.id docJ docName f0.size cands
          let ids2 := if r2.2 then ids1 ++ [doc.id] else ids1
          if ids2.contains doc.id then (r1.1 ++ r2.1, ids2)
          else
            (r1.1 ++ r2.1 ++
              [if confirm then Ev.pend "no matching items" docJ
               else Ev.skip "no matching items" docJ.title], ids2)

/-- The cleanup classification loop over the admitted documents. -/
def classifyDocs (store : Store) (confirm : Bool) :
    List ItemDetail → List String → List Ev
  | [], _ => []
  | d :: rest, removedIds =>
    let r := classifyDoc store confirm removedIds d
    r.1 ++ classifyDocs store confirm rest r.2

/-- The full cleanup-mode classification (lines 164–301): select the
DOCUMENT records, run the whitelist/blacklist pre-filter (with the
in-place-extended lists: `item_whitelist += doc_whitelist` etc.), and
classify the remaining documents. -/
def cleanupClassify (store : Store) (confirm : Bool)
    (itemWL itemBL docWL docBL tagWL tagBL : List String) : List Ev :=
  let allDocs := store.itemList.filter (fun i => i.category == "DOCUMENT")
  let effWL := itemWL ++ docWL
  let effBL := itemBL ++ docBL
  let fr := filterDocs effWL effBL tagWL tagBL allDocs []
  let docs := allDocs.filter (fun d => !fr.2.contains d.id)
  fr.1 ++ classifyDocs store confirm docs []

/-! ## Accumulators

The script collects records into `defaultdict(list)`s; iteration order
over such a dict is key-first-insertion order with values in append
order, modelled by an association list. -/

/-- A `defaultdict(list)`: keys in first-insertion order. -/
abbrev DMap (α : Type) := List (String × List α)

/-- Python `m[k].append(v)`. -/
def dmAdd {α : Type} (k : String) (v : α) : DMap α → DMap α
  | [] => [(k, [v])]
  | (k', vs) :: rest =>
    if k' == k then (k', vs ++ [v]) :: rest else (k', vs) :: dmAdd k v rest

/-- Python `m1[k] = vs` (dict item assignment, overwriting). -/
def dmSet {α : Type} (k : String) (vs : List α) : DMap α → DMap α
  | [] => [(k, vs)]
  | (k', vs') :: rest =>
    if k' == k then (k, vs) :: rest else (k', vs') :: dmSet k vs rest

/-- Python `m1 |= m2` (dict-merge assignment). -/
def dmUpdate {α : Type} (m1 m2 : DMap α) : DMap α :=
  m2.foldl (fun acc kv => dmSet kv.1 kv.2 acc) m1

/-- Total number of stored values (`sum(len(v) for v in m.values())`). -/
def dmTotal {α : Type} : DMap α → Nat
  | [] => 0
  | (_, vs) :: rest => vs.length + dmTotal rest

/-- Flatten a `DMap` in iteration order. -/
def dmFlat {α β : Type} (f : String → α → β) : DMap α → List β
  | [] => []
  | (k, vs) :: rest => vs.map (f k) ++ dmFlat f rest

/-- The five cleanup-mode accumulators. -/
structure CleanAcc where
  reattached : DMap ReatRec
  removed : DMap (ItemDetail × Option ItemDetail)
  pending : DMap ItemDetail
  skipped : DMap String
  failed : DMap (String × String)
deriving DecidableEq, Repr

/-- Fold one event into the cleanup accumulators. -/
def accAdd (acc : CleanAcc) : Ev → CleanAcc
  | Ev.reat docId rec => { acc with reattached := dmAdd docId rec acc.reattached }
  | Ev.rem reason doc refBy => { acc with removed := dmAdd reason (doc, refBy) acc.removed }
  | Ev.pend reason doc => { acc with pending := dmAdd reason doc acc.pending }
  | Ev.skip reason title => { acc with skipped := dmAdd reason title acc.skipped }
  | Ev.fail reason item doc => { acc with failed := dmAdd reason (item, doc) acc.failed }
  | _ => acc

/-- Build the accumulators from the classification log. -/
def accOf (events : List Ev) : CleanAcc :=
  events.foldl accAdd ⟨[], [], [], [], []⟩

/-! ## Interactive gates and the mutation commands -/

/-- Python `rsp.lower().strip() == "n"`. -/
def isNo (r : String) : Bool :=
  pyStrip (String.mk (r.toList.map pyLowerChar)) == "n"

/-- Python `rsp.lower().strip() == "y"`. -/
def isYes (r : String) : Bool :=
  pyStrip (String.mk (r.toList.map pyLowerChar)) == "y"

/-- Consume the next `input()` response (an exhausted stream models an
empty line). -/
def popInput : List String → String × List String
  | [] => ("", [])
  | x :: xs => (x, xs)

/-- One recorded `input()` prompt with its response. -/
inductive GateEv where
  | batch (resp : String)
  | pendingG (resp : String)
  | perRef (item document resp : String)
deriving DecidableEq, Repr

/-- A CLI invocation that can touch the store.  `documentGet` is the
file download; the `itemEdit*` variants carry the `--dry-run` marker
when `dry` is true; `itemDelete` is only ever issued live. -/
inductive Cmd where
  | documentGet (docId vault outFile : String)
  | itemEditFile (itemId vault : String) (dry : Bool) (spec : String)
  | itemEditTags (itemId vault : String) (dry : Bool) (tags : String)
  | itemEditDelRef (itemId vault : String) (dry : Bool) (spec : String)
  | itemDelete (itemId vault : String) (archive : Bool)
deriving DecidableEq, Repr

/-- Issue a sequence of commands inside one `try` block: stop at the
first one the store rejects. -/
def runSeq (ops : Cmd → Bool) : List Cmd → List Cmd × Bool
  | [] => ([], true)
  | c :: rest =>
    if ops c then
      let r := runSeq ops rest
      (c :: r.1, r.2)
    else ([c], false)

/-! ## Cleanup-mode reconciliation executor (lines 348–425) -/

/-- Effective mutation settings for one cleanup run. -/
structure CleanEff where
  dryRun : Bool
  archiveDocs : Bool
  tag : String
deriving DecidableEq, Repr

/-- The `out_file` temp path the file is downloaded to (the random
temp-dir prefix is abstracted as `"tmp/"`). -/
def outFileName (docName : String) : String :=
  "tmp/" ++ String.mk (stripQuotes (pyReplace [' '] ['_'] docName.toList))

/-- The outcome of executing one queued fuzzy reattachment: issued
commands, recorded failures, the state of Python's `doc_vid` variable
afterwards, and whether an uncaught `NameError` aborted the run. -/
structure ReatStep where
  cmds : List Cmd
  events : List Ev
  docVid : Option String
  crashed : Bool
deriving DecidableEq, Repr

/-- The outcome of draining a reattach queue. -/
structure QueueOut where
  cmds : List Cmd
  events : List Ev
  crashed : Bool
deriving DecidableEq, Repr

/-- Execute one queued fuzzy reattachment (lines 350–399).  Four
independent `try` blocks: (download + attach), item tag, document tag,
delete.  Python binds `doc_vid` only inside the third block's guard
(line 388); the delete step reads it.  `docVid0` is the variable's
state on entry (`none` = unbound; a `some` may be a stale value from an
earlier decision).  When the document already carries the
`"<tag> deleted"` tag and the run is live, the delete's f-string raises
an uncaught `NameError` if the variable is unbound — no command is
issued and the whole run aborts (`crashed`). -/
def execReatOne (nfkd : List Char → List Char) (eff : CleanEff) (ops : Cmd → Bool)
    (docVid0 : Option String) (docId : String) (rec : ReatRec) : ReatStep :=
  let itmI := rec.refBy.id
  let itmVid := rec.refBy.vaultId
  let itmName := rec.refBy.title
  let docName := sanitizeS nfkd (pyReplaceS rec.doc.title (" - " ++ itmName) "")
  let escaped := String.mk (stripQuotes (pyReplace ['.'] [bslash, '.'] docName.toList))
  let outFile := outFileName docName
  let blockA := runSeq ops [Cmd.documentGet docId itmVid outFile,
    Cmd.itemEditFile itmI itmVid eff.dryRun (escaped ++ "[file]=" ++ outFile)]
  let evA := if blockA.2 then [] else
    [Ev.fail "failed to reattach document" itmName docName]
  let blockB :=
    if eff.tag != "" && !rec.refBy.tags.contains (eff.tag ++ " fuzzy") then
      runSeq ops [Cmd.itemEditTags itmI itmVid eff.dryRun
        (joinTags (rec.refBy.tags ++ [eff.tag ++ " fuzzy"]))]
    else ([], true)
  let evB := if blockB.2 then [] else
    [Ev.fail "failed to add reattached tag to item" itmName docName]
  let tagGuard := !rec.doc.tags.contains (eff.tag ++ " deleted")
  let docVid1 := if tagGuard then some rec.doc.vaultId else docVid0
  let blockC :=
    if tagGuard then
      runSeq ops [Cmd.itemEditTags docId rec.doc.vaultId eff.dryRun
        (joinTags (rec.doc.tags ++ [eff.tag ++ " deleted"]))]
    else ([], true)
  let evC := if blockC.2 then [] else
    [Ev.fail "failed to tag document before removal" itmName docName]
  if eff.dryRun then
    ⟨blockA.1 ++ blockB.1 ++ blockC.1, evA ++ evB ++ evC, docVid1, false⟩
  else
    match docVid1 with
    | none =>
      ⟨blockA.1 ++ blockB.1 ++ blockC.1,
       evA ++ evB ++ evC ++ [Ev.crash "NameError: doc_vid unbound at delete"],
       none, true⟩
    | some v =>
      let blockD := runSeq ops [Cmd.itemDelete docId v eff.archiveDocs]
      let evD := if blockD.2 then [] else
        [Ev.fail "failed to delete document" itmName docName]
      ⟨blockA.1 ++ blockB.1 ++ blockC.1 ++ blockD.1, evA ++ evB ++ evC ++ evD,
       docVid1, false⟩

/-- Drain the reattach queue, threading the `doc_vid` variable across
decisions; an uncaught `NameError` aborts the remaining queue. -/
def execReats (nfkd : List Char → List Char) (eff : CleanEff) (ops : Cmd → Bool) :
    Option String → List (String × ReatRec) → QueueOut
  | _, [] => ⟨[], [], false⟩
  | dv, (docId, rec) :: rest =>
    let r := execReatOne nfkd eff ops dv docId rec
    if r.crashed then ⟨r.cmds, r.events, true⟩
    else
      let r2 := execReats nfkd eff ops r.docVid rest
      ⟨r.cmds ++ r2.cmds, r.events ++ r2.events, r2.crashed⟩

/-- Execute one removal (lines 404–425): two independent `try` blocks,
tag then delete. -/
def execRemOne (eff : CleanEff) (ops : Cmd → Bool)
    (p : ItemDetail × Option ItemDetail) : List Cmd × List Ev :=
  let d := p.1
  let t1 :=
    if !d.tags.contains (eff.tag ++ " deleted") then
      runSeq ops [Cmd.itemEditTags d.id d.vaultId eff.dryRun
        (joinTags (d.tags ++ [eff.tag ++ " deleted"]))]
    else ([], true)
  let e1 := if t1.2 then [] else
    [Ev.fail "failed to tag document before removal" d.title d.title]
  let t2 :=
    if !eff.dryRun then
      runSeq ops [Cmd.itemDelete d.id d.vaultId eff.archiveDocs]
    else ([], true)
  let e2 := if t2.2 then [] else
    [Ev.fail "failed to delete document" d.title d.title]
  (t1.1 ++ t2.1, e1 ++ e2)

/-- Drain the removal list. -/
def execRems (eff : CleanEff) (ops : Cmd → Bool) :
    List (ItemDetail × Option ItemDetail) → List Cmd × List Ev
  | [] => ([], [])
  | p :: rest =>
    let r1 := execRemOne eff ops p
    let r2 := execRems eff ops rest
    (r1.1 ++ r2.1, r1.2 ++ r2.2)

/-! ## Cleanup-mode CSV export (lines 452–466) -/

/-- The CSV written at the end of `cleanup_documents` (header row
included; the exception text in failure rows is abstracted as
`"error"`). -/
def cleanupCsv (reattached : DMap ReatRec)
    (removed : DMap (ItemDetail × Option ItemDetail))
    (skipped : DMap String) (failed : DMap (String × String)) :
    List (List String) :=
  [["document", "action", "item", "reason"]] ++
  dmFlat (fun _ rec =>
    [rec.doc.title, "reattached", rec.refBy.title, "matched by item/doc name"]) reattached ++
  dmFlat (fun reason p =>
    [p.1.title, "removed", (p.2.map (fun r => r.title)).getD "", reason]) removed ++
  dmFlat (fun reason title => [title, "skipped", "", reason]) skipped ++
  dmFlat (fun reason p => [p.1, reason, p.2, "error"]) failed

/-! ## The `cleanup_documents` entry point (lines 139–470) -/

/-- Configuration of a run (after argument parsing). -/
structure CleanCfg where
  dryRun : Bool
  archiveDocs : Bool
  superviseRun : Bool
  confirmBeforeModifying : Bool
  verbose : Bool
  generateShareLinks : Bool
  itemWhitelist : List String
  itemBlacklist : List String
  docWhitelist : List String
  docBlacklist : List String
  tagWhitelist : List String
  tagBlacklist : List String
  reattachedTag : String

/-- Everything observable about one run: the classification log, the
prompts answered, the commands issued to the store, the failures
recorded while executing, the written CSV (`none` when the run
returned before reaching the export), and whether an uncaught Python
exception aborted the run. -/
structure CleanResult where
  events : List Ev
  gates : List GateEv
  cmds : List Cmd
  execEvents : List Ev
  csv : Option (List (List String))
  crashed : Bool
deriving DecidableEq, Repr

/-- The part of `cleanup_documents` after the batch-confirmation gate:
the pending-removal prompt, the two executor loops and the report.  An
uncaught `NameError` in the reattach loop propagates out of the
function: the removal loop never runs and no CSV is written. -/
def cleanupFinish (nfkd : List Char → List Char) (eff : CleanEff) (ops : Cmd → Bool)
    (events : List Ev) (acc : CleanAcc) (gates0 : List GateEv)
    (inputs : List String) : CleanResult :=
  let numPend := dmTotal acc.pending
  let pr :=
    if numPend > 0 then
      let p := popInput inputs
      ((if isYes p.1 then
          dmUpdate acc.removed (acc.pending.map (fun kv => (kv.1, kv.2.map (fun d => (d, none)))))
        else acc.removed),
        gates0 ++ [GateEv.pendingG p.1])
    else (acc.removed, gates0)
  let er := execReats nfkd eff ops none (dmFlat (fun k v => (k, v)) acc.reattached)
  if er.crashed then
    { events := events
      gates := pr.2
      cmds := er.cmds
      execEvents := er.events
      csv := none
      crashed := true }
  else
    let rr := execRems eff ops (dmFlat (fun _ v => v) pr.1)
    let failedFinal := (er.events ++ rr.2).foldl
      (fun m e => match e with
        | Ev.fail reason item doc => dmAdd reason (item, doc) m
        | _ => m) acc.failed
    { events := events
      gates := pr.2
      cmds := er.cmds ++ rr.1
      execEvents := er.events ++ rr.2
      csv := some (cleanupCsv acc.reattached pr.1 acc.skipped failedFinal)
      crashed := false }

/-- Function `cleanup_documents`: classify, gate, execute, report. -/
def cleanup_documents (nfkd : List Char → List Char) (cfg : CleanCfg) (store : Store)
    (ops : Cmd → Bool) (inputs : List String) : CleanResult :=
  let confirm := cfg.confirmBeforeModifying || cfg.superviseRun
  let eff : CleanEff := ⟨cfg.dryRun, cfg.archiveDocs, normTag cfg.reattachedTag⟩
  let events := cleanupClassify store confirm cfg.itemWhitelist cfg.itemBlacklist
    cfg.docWhitelist cfg.docBlacklist cfg.tagWhitelist cfg.tagBlacklist
  let acc := accOf events
  let numReat := dmTotal acc.reattached
  let numRem := dmTotal acc.removed
  if confirm && (numReat > 0 || numRem > 0) then
    let p := popInput inputs
    if isNo p.1 then
      { events := events, gates := [GateEv.batch p.1], cmds := [],
        execEvents := [], csv := none, crashed := false }
    else cleanupFinish nfkd eff ops events acc [GateEv.batch p.1] p.2
  else cleanupFinish nfkd eff ops events acc [] inputs

/-! ## Reference-mode matcher (`main`, lines 472–785) -/

/-- Effective settings for a reference-mode run (`verbose`,
`generate_share_links` and `confirm_before_modifying` are all forced on
by `supervise_run`). -/
structure MainEff where
  dryRun : Bool
  archiveDocs : Bool
  superviseRun : Bool
  verbose : Bool
  generateShareLinks : Bool
  confirm : Bool
  tag : String
  docWhitelist : List String
  docBlacklist : List String
deriving Repr

/-- Whether processing a reference reaches the per-document supervised
prompt at line 631 (and hence consumes one `input()` response):
the referenced record fetched, admitted by the doc whitelist/blacklist,
a DOCUMENT, the optional share-link fetch succeeded, and
`supervise_run` is on.  This is a pure function of the snapshot, not of
earlier responses. -/
def refConsumes (store : Store) (eff : MainEff) (ref : FieldRec) : Bool :=
  eff.superviseRun &&
  (match store.getItem ref.value with
   | none => false
   | some refJ =>
     !wblaDenies (allowed_by_white_black_lists refJ.title
        eff.docWhitelist eff.docBlacklist false) &&
     refJ.category == "DOCUMENT" &&
     (!(eff.verbose && eff.generateShareLinks) ||
       (store.getShareLink ref.value).isSome))

/-- Processing of one REFERENCE field (lines 602–661).  `resp` is the
response consumed at the supervised gate when it is reached (ignored
otherwise).  On a fetch failure Python's handler reads `ref_name`,
which at that point is unbound or stale; the payload is modelled as
`""`.  A referenced document with zero files raises an uncaught
`IndexError` in Python, modelled as `Ev.crash`. -/
def classifyRef (nfkd : List Char → List Char) (store : Store) (eff : MainEff)
    (itmId itmVid itmName itmLnk : String) (itmTags : List String)
    (resp : String) (ref : FieldRec) : List Ev :=
  match store.getItem ref.value with
  | none => [Ev.mfail "failed to check document" itmName "" itmLnk]
  | some refJ =>
    let wbla := allowed_by_white_black_lists refJ.title
      eff.docWhitelist eff.docBlacklist false
    if wblaDenies wbla then
      [Ev.mskip (if !wbla.2 then "doc blacklisted" else "doc not on whitelist")
        itmName refJ.title itmLnk]
    else if refJ.category != "DOCUMENT" then
      [Ev.mskip "not a document" itmName refJ.title itmLnk]
    else
      let refName := sanitizeS nfkd (pyReplaceS refJ.title (" - " ++ itmName) "")
      if eff.verbose && eff.generateShareLinks &&
          (store.getShareLink ref.value).isNone then
        [Ev.mfail "failed to check document" itmName refName itmLnk]
      else if eff.superviseRun && isNo resp then
        [Ev.mskip "user skipped" itmName refName itmLnk]
      else
        let ev1 : List Ev :=
          if refJ.files.length > 1 then
            [Ev.mskip "more than one file" itmName refName itmLnk]
          else []
        match refJ.files with
        | [] => ev1 ++ [Ev.crash "IndexError: referenced document has no files"]
        | f0 :: _ =>
          ev1 ++ [Ev.mreat ref.value
            { item := itmName, doc := refName, link := itmLnk,
              refVid := refJ.vaultId,
              refNameEscaped :=
                String.mk (stripQuotes (pyReplace ['.'] [bslash, '.'] f0.name.toList)),
              refSec := ref.sectionLabel, refFieldId := ref.fieldId,
              refFileName := f0.name, itemId := itmId, itemVid := itmVid,
              itemTags := itmTags, docTags := refJ.tags }]

/-- The reference loop of one item, threading the `input()` stream; the
gate log records the prompts (keyed by the referenced record id). -/
def classifyRefs (nfkd : List Char → List Char) (store : Store) (eff : MainEff)
    (itmId itmVid itmName itmLnk : String) (itmTags : List String) :
    List FieldRec → List String → List Ev × List GateEv × List String
  | [], inp => ([], [], inp)
  | r :: rest, inp =>
    let consumed := refConsumes store eff r
    let pr := if consumed then popInput inp else ("", inp)
    let evs := classifyRef nfkd store eff itmId itmVid itmName itmLnk itmTags pr.1 r
    let gs : List GateEv :=
      if consumed then [GateEv.perRef itmName r.value pr.1] else []
    let rest' := classifyRefs nfkd store eff itmId itmVid itmName itmLnk itmTags rest pr.2
    (evs ++ rest'.1, gs ++ rest'.2.1, rest'.2.2)

/-- Processing of one admitted item (lines 576–661). -/
def classifyItem (nfkd : List Char → List Char) (store : Store) (eff : MainEff)
    (itm : ItemDetail) (inp : List String) : List Ev × List GateEv × List String :=
  match store.getItem itm.id with
  | none => ([Ev.mfail "failed to get item" itm.title "" ""], [], inp)
  | some itmJ =>
    let itmName := itmJ.title
    let itmVid := itmJ.vaultId
    let refs := itmJ.fields.filter (fun r => r.type == "REFERENCE")
    match (if eff.generateShareLinks then store.getShareLink itm.id else some "") with
    | none => ([Ev.mfail "failed to get item link" itmName "" ""], [], inp)
    | some itmLnk =>
      classifyRefs nfkd store eff itm.id itmVid itmName itmLnk itmJ.tags refs inp

/-- The item loop. -/
def classifyItems (nfkd : List Char → List Char) (store : Store) (eff : MainEff) :
    List ItemDetail → List String → List Ev × List GateEv × List String
  | [], inp => ([], [], inp)
  | itm :: rest, inp =>
    let r1 := classifyItem nfkd store eff itm inp
    let r2 := classifyItems nfkd store eff rest r1.2.2
    (r1.1 ++ r2.1, r1.2.1 ++ r2.2.1, r2.2.2)

/-- Reference-mode item pre-filter (lines 551–564); same logic as the
cleanup one but the skip payload is `{"item": title, "document": "",
"item link": ""}`. -/
def filterItm (itemWL itemBL tagWL tagBL : List String)
    (skipped : List String) (itm : ItemDetail) : List Ev × List String :=
  let wbla := allowed_by_white_black_lists itm.title itemWL itemBL false
  let step1 :=
    if wblaDenies wbla then
      let rs := if !wbla.2 then "item blacklisted" else "item not on whitelist"
      (([Ev.mskip rs itm.title "" ""] : List Ev), skipped ++ [itm.id])
    else (([] : List Ev), skipped)
  if step1.2.contains itm.id then step1
  else
    match (itm.tags.find? (fun t =>
        wblaDenies (allowed_by_white_black_lists t tagWL tagBL true))) with
    | none => step1
    | some t =>
      let w := allowed_by_white_black_lists t tagWL tagBL true
      let rs := if !w.2 then "item tag blacklisted" else "item tag not on whitelist"
      (step1.1 ++ [Ev.mskip rs itm.title "" ""], step1.2 ++ [itm.id])

/-- The reference-mode pre-filter loop. -/
def filterItms (itemWL itemBL tagWL tagBL : List String) :
    List ItemDetail → List String → List Ev × List String
  | [], skipped => ([], skipped)
  | i :: rest, skipped =>
    let r1 := filterItm itemWL itemBL tagWL tagBL skipped i
    let r2 := filterItms itemWL itemBL tagWL tagBL rest r1.2
    (r1.1 ++ r2.1, r2.2)

/-- The whole reference-mode classification (lines 544–661). -/
def mainClassify (nfkd : List Char → List Char) (store : Store) (eff : MainEff)
    (itemWL itemBL tagWL tagBL : List String) (inp : List String) :
    List Ev × List GateEv × List String :=
  let allItms := store.itemList.filter (fun i => i.category != "DOCUMENT")
  let fr := filterItms itemWL itemBL tagWL tagBL allItms []
  let itms := allItms.filter (fun i => !fr.2.contains i.id)
  let cr := classifyItems nfkd store eff itms inp
  (fr.1 ++ cr.1, cr.2.1, cr.2.2)

/-! ## Reference-mode executor (lines 687–732): one `try` block wraps
the entire step sequence of a decision, so the first rejected command
ends that decision's sequence (but not the queue). -/

/-- Execute one queued reference reattachment. -/
def mainExecOne (eff : MainEff) (ops : Cmd → Bool) (refId : String)
    (rec : MReatRec) : List Cmd × List Ev :=
  let outFile := "tmp/" ++ String.mk (stripQuotes (pyReplace [' '] ['_'] rec.refFileName.toList))
  let steps :=
    [Cmd.documentGet refId rec.refVid outFile,
     Cmd.itemEditFile rec.itemId rec.itemVid eff.dryRun
       (rec.refNameEscaped ++ "[file]=" ++ outFile)] ++
    (if eff.tag != "" && !rec.itemTags.contains eff.tag then
       [Cmd.itemEditTags rec.itemId rec.itemVid eff.dryRun
         (joinTags (rec.itemTags ++ [eff.tag]))]
     else []) ++
    [Cmd.itemEditDelRef rec.itemId rec.itemVid eff.dryRun
      (rec.refSec ++ "." ++ rec.refFieldId ++ "[delete]")] ++
    (if !rec.docTags.contains (eff.tag ++ " deleted") then
       [Cmd.itemEditTags refId rec.refVid eff.dryRun
         (joinTags (rec.docTags ++ [eff.tag ++ " deleted"]))]
     else []) ++
    (if !eff.dryRun then [Cmd.itemDelete refId rec.refVid eff.archiveDocs] else [])
  let r := runSeq ops steps
  (r.1, if r.2 then [] else
    [Ev.mfail "failed to reattach document" rec.item rec.doc rec.link])

/-- Drain the reference-mode reattach queue. -/
def mainExec (eff : MainEff) (ops : Cmd → Bool) :
    List (String × MReatRec) → List Cmd × List Ev
  | [] => ([], [])
  | (refId, rec) :: rest =>
    let r1 := mainExecOne eff ops refId rec
    let r2 := mainExec eff ops rest
    (r1.1 ++ r2.1, r1.2 ++ r2.2)

/-- The reference-mode reattach queue derived from the event log
(`reattached_docs`, keyed by referenced-record id). -/
def mainReatQueue (events : List Ev) : DMap MReatRec :=
  events.foldl (fun m e => match e with
    | Ev.mreat refId rec => dmAdd refId rec m
    | _ => m) []

/-- Accumulator `skipped_docs` of the reference mode. -/
def mAccSkip (events : List Ev) : DMap (String × String × String) :=
  events.foldl (fun m e => match e with
    | Ev.mskip r i d l => dmAdd r (i, d, l) m
    | _ => m) []

/-- Accumulator `failed_docs` of the reference mode. -/
def mAccFail (events : List Ev) : DMap (String × String × String) :=
  events.foldl (fun m e => match e with
    | Ev.mfail r i d l => dmAdd r (i, d, l) m
    | _ => m) []

/-- The reference-mode CSV (lines 773–783); every queued reattachment
is written as `"reattached"` whether or not its execution failed; the
exception text is abstracted. -/
def mainCsv (reattachedFlat : List MReatRec)
    (skipped failed : DMap (String × String × String)) : List (List String) :=
  [["item", "document", "item link", "status"]] ++
  reattachedFlat.map (fun r => [r.item, r.doc, r.link, "reattached"]) ++
  dmFlat (fun k p => [p.1, p.2.1, p.2.2, "skipped: " ++ k]) skipped ++
  dmFlat (fun _ p => [p.1, p.2.1, p.2.2, "error: error"]) failed

/-- The part of `main` after the batch gate. -/
def mainFinish (eff : MainEff) (ops : Cmd → Bool) (events : List Ev)
    (gates : List GateEv) : CleanResult :=
  let queue := dmFlat (fun k v => (k, v)) (mainReatQueue events)
  let ex := mainExec eff ops queue
  let failedFinal := ex.2.foldl (fun m e => match e with
    | Ev.mfail r i d l => dmAdd r (i, d, l) m
    | _ => m) (mAccFail events)
  { events := events, gates := gates, cmds := ex.1, execEvents := ex.2,
    csv := some (mainCsv (queue.map (fun p => p.2)) (mAccSkip events) failedFinal),
    crashed := false }

/-- Function `main`: the reference-reconciliation entry point.  Returns early
(without a CSV) when nothing is queued or when the operator declines the
batch gate. -/
def mainRun (nfkd : List Char → List Char) (cfg : CleanCfg) (store : Store)
    (ops : Cmd → Bool) (inputs : List String) : CleanResult :=
  let eff : MainEff :=
    { dryRun := cfg.dryRun, archiveDocs := cfg.archiveDocs,
      superviseRun := cfg.superviseRun,
      verbose := cfg.verbose || cfg.superviseRun,
      generateShareLinks := cfg.generateShareLinks || cfg.superviseRun,
      confirm := cfg.confirmBeforeModifying || cfg.superviseRun,
      tag := normTag cfg.reattachedTag,
      docWhitelist := cfg.docWhitelist, docBlacklist := cfg.docBlacklist }
  let cl := mainClassify nfkd store eff cfg.itemWhitelist cfg.itemBlacklist
    cfg.tagWhitelist cfg.tagBlacklist inputs
  let events := cl.1
  let gates1 := cl.2.1
  let inp1 := cl.2.2
  if dmTotal (mainReatQueue events) == 0 then
    { events := events, gates := gates1, cmds := [], execEvents := [], csv := none,
      crashed := false }
  else if eff.confirm then
    let p := popInput inp1
    if isNo p.1 then
      { events := events, gates := gates1 ++ [GateEv.batch p.1], cmds := [],
        execEvents := [], csv := none, crashed := false }
    else mainFinish eff ops events (gates1 ++ [GateEv.batch p.1])
  else mainFinish eff ops events gates1

/-! ## Shared mutable default arguments (lines 139–152 and 178–179)

Python evaluates the `=[]` defaults of `cleanup_documents` once, at
function definition time; `item_whitelist += doc_whitelist` and
`item_blacklist += doc_blacklist` then mutate whichever list object is
bound, so a call that leaves a parameter at its default mutates the
shared default object and later calls observe the appended entries.
Caller-supplied list objects are modelled by value; the default objects
are the explicit state below. -/

/-- The state of the four list default-argument objects. -/
structure ListEnv where
  itemWLdef : List String
  itemBLdef : List String
  docWLdef : List String
  docBLdef : List String
deriving DecidableEq, Repr

/-- One call's effective item whitelist/blacklist (after the in-place
`+=`) together with the default objects' new state.  `none` models an
omitted argument (the default object is used, and mutated). -/
def cleanupCallLists (env : ListEnv)
    (itemWL? itemBL? docWL? docBL? : Option (List String)) :
    (List String × List String) × ListEnv :=
  let docWL := docWL?.getD env.docWLdef
  let docBL := docBL?.getD env.docBLdef
  let effWL := (itemWL?.getD env.itemWLdef) ++ docWL
  let effBL := (itemBL?.getD env.itemBLdef) ++ docBL
  ((effWL, effBL),
   { itemWLdef := if itemWL?.isNone then effWL else env.itemWLdef,
     itemBLdef := if itemBL?.isNone then effBL else env.itemBLdef,
     docWLdef := env.docWLdef, docBLdef := env.docBLdef })

/-- A cleanup call observed at the classification level: the effective
lists are resolved against the default-object state, the classification
is computed, and the new state is returned.  (The `++` of the document
lists has already happened inside `cleanupCallLists`, so the document
lists passed on are empty.) -/
def cleanupCallClassify (store : Store) (confirm : Bool) (env : ListEnv)
    (itemWL? itemBL? docWL? docBL? : Option (List String))
    (tagWL tagBL : List String) : List Ev × ListEnv :=
  let r := cleanupCallLists env itemWL? itemBL? docWL? docBL?
  (cleanupClassify store confirm r.1.1 r.1.2 [] [] tagWL tagBL, r.2)

/-! ## Auxiliary predicates used in theorem statements -/

/-- Force the dry-run marker of a command on (used to compare dry and
live command sequences). -/
def setDry : Cmd → Cmd
  | Cmd.itemEditFile i v _ s => Cmd.itemEditFile i v true s
  | Cmd.itemEditTags i v _ s => Cmd.itemEditTags i v true s
  | Cmd.itemEditDelRef i v _ s => Cmd.itemEditDelRef i v true s
  | c => c

/-- Is this the `item delete` command? -/
def isDeleteCmd : Cmd → Bool
  | Cmd.itemDelete _ _ _ => true
  | _ => false

/-- A match candidate that the archived-reference pass passes over:
not archived, or unfetchable, or fetched with no REFERENCE field to the
document. -/
def archNoRef (store : Store) (docId : String) (c : ItemDetail) : Bool :=
  !(c.state == "ARCHIVED") ||
  (match store.getItem c.id with
   | none => true
   | some j => (refsTo docId j).isEmpty)

/-- A match candidate that the active-overlap pass passes over:
archived, or unfetchable, or fetched with no attached files. -/
def activeSkipped (store : Store) (c : ItemDetail) : Bool :=
  (c.state == "ARCHIVED") ||
  (match store.getItem c.id with
   | none => true
   | some j => j.files.isEmpty)

/-- A match candidate that is active, fetchable and has no attached
files (the situation of claim C1's owner item). -/
def candActiveNoFiles (store : Store) (c : ItemDetail) : Bool :=
  !(c.state == "ARCHIVED") &&
  (match store.getItem c.id with
   | none => false
   | some j => j.files.isEmpty)

/-- How many `input()` responses the reference loop of one item
consumes: one per reference that reaches the supervised gate.  Pure in
the snapshot — answering a prompt never changes which later prompts are
shown. -/
def countConsumes (store : Store) (eff : MainEff) (refs : List FieldRec) : Nat :=
  refs.countP (fun r => refConsumes store eff r)

/-! ## Concrete fixtures used by counterexamples and witnesses -/

/-- C1's document: `"Passport - Jane Doe"` with one attached file. -/
def c1doc : ItemDetail :=
  { id := "d1", title := "Passport - Jane Doe", vaultId := "v1"
    category := "DOCUMENT", state := "", tags := []
    files := [⟨"f1", "Passport", 100⟩], fields := [] }

/-- C1's owner item: `"Jane Doe"`, active, no attached files. -/
def c1item : ItemDetail :=
  { id := "i1", title := "Jane Doe", vaultId := "v1", category := "LOGIN"
    state := "", tags := [], files := [], fields := [] }

/-- C1's snapshot. -/
def c1store : Store :=
  { itemList := [c1doc, c1item], itemListWithArchive := [c1item]
    getItem := fun i =>
      if i == "d1" then some c1doc else if i == "i1" then some c1item else none
    getShareLink := fun _ => none }

/-- C2's document: `"Report - Jane"`, one file of size 5. -/
def c2doc : ItemDetail :=
  { id := "d2", title := "Report - Jane", vaultId := "v1"
    category := "DOCUMENT", state := "", tags := []
    files := [⟨"f2", "Report", 5⟩], fields := [] }

/-- C2's owner item: active `"Jane"` holding one unrelated file
(size 7, different name), so the fuzzy reattachment fires. -/
def c2item : ItemDetail :=
  { id := "i2", title := "Jane", vaultId := "v1", category := "LOGIN"
    state := "", tags := [], files := [⟨"g1", "Other", 7⟩], fields := [] }

/-- C2's snapshot. -/
def c2store : Store :=
  { itemList := [c2doc, c2item], itemListWithArchive := [c2item]
    getItem := fun i =>
      if i == "d2" then some c2doc else if i == "i2" then some c2item else none
    getShareLink := fun _ => none }

/-- A plain non-interactive configuration (live run, defaults
otherwise). -/
def baseCfg : CleanCfg :=
  { dryRun := false, archiveDocs := true, superviseRun := false
    confirmBeforeModifying := false, verbose := false, generateShareLinks := false
    itemWhitelist := [], itemBlacklist := [], docWhitelist := [], docBlacklist := []
    tagWhitelist := [], tagBlacklist := [], reattachedTag := "" }

/-- C3's reference field, on item `"Jane"`, pointing at document `d3`. -/
def c3ref : FieldRec :=
  { type := "REFERENCE", value := "d3", sectionLabel := "sec", fieldId := "fld" }

/-- C3's item. -/
def c3item : ItemDetail :=
  { id := "i3", title := "Jane", vaultId := "v1", category := "LOGIN"
    state := "", tags := [], files := [], fields := [c3ref] }

/-- C3's referenced document with a single file. -/
def c3doc : ItemDetail :=
  { id := "d3", title := "Passport", vaultId := "v1", category := "DOCUMENT"
    state := "", tags := [], files := [⟨"f3", "p.pdf", 3⟩], fields := [] }

/-- C3's snapshot. -/
def c3store : Store :=
  { itemList := [c3item, c3doc], itemListWithArchive := []
    getItem := fun i =>
      if i == "i3" then some c3item else if i == "d3" then some c3doc else none
    getShareLink := fun _ => none }

/-- An oracle that rejects the file download and accepts everything
else. -/
def failDocGet : Cmd → Bool := fun c =>
  match c with
  | Cmd.documentGet _ _ _ => false
  | _ => true

/-- C4's referenced document carrying two files. -/
def c4doc : ItemDetail :=
  { id := "d4", title := "Scan", vaultId := "v1", category := "DOCUMENT"
    state := "", tags := [], files := [⟨"f4", "a.pdf", 3⟩, ⟨"f5", "b.pdf", 4⟩]
    fields := [] }

/-- C4's snapshot (only `getItem` matters for `classifyRef`). -/
def c4store : Store :=
  { itemList := [], itemListWithArchive := []
    getItem := fun i => if i == "d4" then some c4doc else none
    getShareLink := fun _ => none }

/-- A reference to C4's document. -/
def c4ref : FieldRec :=
  { type := "REFERENCE", value := "d4", sectionLabel := "s", fieldId := "f" }

/-- Non-supervised effective settings for reference-mode theorems. -/
def plainEff : MainEff :=
  { dryRun := false, archiveDocs := true, superviseRun := false
    verbose := false, generateShareLinks := false, confirm := false
    tag := "", docWhitelist := [], docBlacklist := [] }

/-- C5's document: `"Deed - Jane"`, one file of size 5. -/
def c5doc : ItemDetail :=
  { id := "d5", title := "Deed - Jane", vaultId := "v1"
    category := "DOCUMENT", state := "", tags := []
    files := [⟨"f6", "Deed", 5⟩], fields := [] }

/-- C5's archived owner holding an explicit reference to the document. -/
def c5arch : ItemDetail :=
  { id := "i5", title := "Jane", vaultId := "v1", category := "LOGIN"
    state := "ARCHIVED", tags := [], files := []
    fields := [{ type := "REFERENCE", value := "d5", sectionLabel := "s", fieldId := "f" }] }

/-- C5's active owner, which would otherwise win a fuzzy reattachment. -/
def c5active : ItemDetail :=
  { id := "i6", title := "Jane", vaultId := "v1", category := "LOGIN"
    state := "", tags := [], files := [⟨"g2", "Other", 9⟩], fields := [] }

/-- C5's snapshot: the archived owner is listed after the active one,
yet still wins. -/
def c5store : Store :=
  { itemList := [c5doc, c5active], itemListWithArchive := [c5active, c5arch]
    getItem := fun i =>
      if i == "d5" then some c5doc
      else if i == "i5" then some c5arch
      else if i == "i6" then some c5active else none
    getShareLink := fun _ => none }

/-- C8's two references (to documents `d8a` and `d8b`). -/
def c8refA : FieldRec :=
  { type := "REFERENCE", value := "d8a", sectionLabel := "s", fieldId := "fa" }

/-- Second reference for C8. -/
def c8refB : FieldRec :=
  { type := "REFERENCE", value := "d8b", sectionLabel := "s", fieldId := "fb" }

/-- C8's first referenced document. -/
def c8docA : ItemDetail :=
  { id := "d8a", title := "Will", vaultId := "v1", category := "DOCUMENT"
    state := "", tags := [], files := [⟨"h1", "w.pdf", 2⟩], fields := [] }

/-- C8's second referenced document. -/
def c8docB : ItemDetail :=
  { id := "d8b", title := "Deed", vaultId := "v1", category := "DOCUMENT"
    state := "", tags := [], files := [⟨"h2", "e.pdf", 6⟩], fields := [] }

/-- C8's item holding both references. -/
def c8item : ItemDetail :=
  { id := "i8", title := "Jane", vaultId := "v1", category := "LOGIN"
    state := "", tags := [], files := [], fields := [c8refA, c8refB] }

/-- C8's snapshot; share links resolve so the supervised path is
reachable. -/
def c8store : Store :=
  { itemList := [c8item, c8docA, c8docB], itemListWithArchive := []
    getItem := fun i =>
      if i == "i8" then some c8item
      else if i == "d8a" then some c8docA
      else if i == "d8b" then some c8docB else none
    getShareLink := fun _ => some "link" }

/-- Supervised effective settings (verbose, share links and
confirmation forced on, as `main` does). -/
def supEff : MainEff :=
  { dryRun := false, archiveDocs := true, superviseRun := true
    verbose := true, generateShareLinks := true, confirm := true
    tag := "", docWhitelist := [], docBlacklist := [] }

/-- C9's document (admitted when the whitelist is empty, denied once
the polluted default whitelist demands `"passport"`). -/
def c9doc : ItemDetail :=
  { id := "d9", title := "Tax", vaultId := "v1", category := "DOCUMENT"
    state := "", tags := [], files := [], fields := [] }

/-- C9's snapshot. -/
def c9store : Store :=
  { itemList := [c9doc], itemListWithArchive := []
    getItem := fun i => if i == "d9" then some c9doc else none
    getShareLink := fun _ => none }

/-- The pristine default-argument state of `cleanup_documents`. -/
def c9env0 : ListEnv := ⟨[], [], [], []⟩

/-- C10's failing input: `"x." + "b" * 599` (ASCII, so NFKD is the
identity on it). -/
def c10input : List Char := 'x' :: '.' :: List.replicate 599 'b'

/-- The reference-mode reattach record the classifier queues for
`c3store`. -/
def c3rec : MReatRec :=
  { item := "Jane", doc := "Passport", link := "", refVid := "v1"
    refNameEscaped := "p\\.pdf", refSec := "sec", refFieldId := "fld"
    refFileName := "p.pdf", itemId := "i3", itemVid := "v1"
    itemTags := [], docTags := [] }

/-- Cleanup executor settings for a live run with no reattached tag. -/
def plainCleanEff : CleanEff := ⟨false, true, ""⟩

/-- A queued document that already carries the `" deleted"` marker tag
(the reattached tag of `plainCleanEff` is empty): the document-tag
guard is false, so Python never binds `doc_vid` and the live delete
step raises an uncaught `NameError`. -/
def preTaggedDoc : ItemDetail :=
  { id := "d7", title := "Note - Jane", vaultId := "v1", category := "DOCUMENT"
    state := "", tags := [" deleted"], files := [⟨"f7", "Note", 4⟩], fields := [] }

/-! ## General lemmas -/

/-- Substring-test characterisation: a prefix test succeeds exactly when
the searched list decomposes accordingly. -/
theorem listPrefOf_iff (a b : List Char) : listPrefOf a b = true ↔ ∃ t, b = a ++ t := by
  induction a generalizing b with
  | nil => simp [listPrefOf]
  | cons x xs ih =>
    cases b with
    | nil => simp [listPrefOf]
    | cons y ys =>
      simp only [listPrefOf, Bool.and_eq_true, beq_iff_eq, ih]
      constructor
      · rintro ⟨rfl, t, rfl⟩
        exact ⟨t, rfl⟩
      · rintro ⟨t, h⟩
        injection h with h1 h2
        exact ⟨h1.symm, t, h2⟩

/-- Python substring containment holds exactly when the searched list
splits around the pattern. -/
theorem pySubstr_iff (w s : List Char) : pySubstr w s = true ↔ ∃ l r, s = l ++ w ++ r := by
  induction s with
  | nil =>
    constructor
    · intro h
      have hw : w = [] := by simpa [pySubstr, List.isEmpty_iff] using h
      exact ⟨[], [], by simp [hw]⟩
    · rintro ⟨l, r, h⟩
      rcases List.append_eq_nil.mp h.symm with ⟨h1, h2⟩
      rcases List.append_eq_nil.mp h1 with ⟨-, h3⟩
      simp [pySubstr, List.isEmpty_iff, h3]
  | cons c cs ih =>
    simp only [pySubstr, Bool.or_eq_true, listPrefOf_iff, ih]
    constructor
    · rintro (⟨t, h⟩ | ⟨l, r, h⟩)
      · exact ⟨[], t, by simpa using h⟩
      · exact ⟨c :: l, r, by simp [h]⟩
    · rintro ⟨l, r, h⟩
      cases l with
      | nil =>
        left
        exact ⟨r, by simpa using h⟩
      | cons x xs =>
        right
        injection h with h1 h2
        exact ⟨xs, r, h2⟩

/-- Negative form of `pySubstr_iff`. -/
theorem pySubstr_eq_false_iff (w s : List Char) :
    pySubstr w s = false ↔ ∀ l r, s ≠ l ++ w ++ r := by
  rw [← Bool.not_eq_true, pySubstr_iff]
  push_neg
  rfl

/-- When no match candidate is archived, the archived-reference pass
does nothing. -/
theorem archivedPass_skip_all (store : Store) (docId : String) (docJ : ItemDetail)
    (docName : String) (cands : List ItemDetail)
    (h : ∀ c ∈ cands, (c.state == "ARCHIVED") = false) :
    archivedPass store docId docJ docName cands = ([], false) := by
  induction cands with
  | nil => rfl
  | cons c rest ih =>
    have hc := h c (List.mem_cons_self c rest)
    simp only [archivedPass, hc, Bool.false_eq_true, if_false]
    exact ih (fun x hx => h x (List.mem_cons_of_mem c hx))

/-- When every match candidate is active, fetchable and file-less, the
active-overlap pass passes all of them over. -/
theorem activePass_skip_all (store : Store) (docId : String) (docJ : ItemDetail)
    (docName : String) (docSize : Nat) (cands : List ItemDetail)
    (h : ∀ c ∈ cands, candActiveNoFiles store c = true) :
    activePass store docId docJ docName docSize cands = ([], false) := by
  induction cands with
  | nil => rfl
  | cons c rest ih =>
    have hc := h c (List.mem_cons_self c rest)
    unfold candActiveNoFiles at hc
    rw [Bool.and_eq_true] at hc
    have hstate : (c.state == "ARCHIVED") = false := by
      rcases hc with ⟨h1, -⟩
      cases hs : (c.state == "ARCHIVED") with
      | false => rfl
      | true => rw [hs] at h1; simp at h1
    have ihr := ih (fun x hx => h x (List.mem_cons_of_mem c hx))
    cases hg : store.getItem c.id with
    | none => rw [hg] at hc; simp at hc
    | some j =>
      rw [hg] at hc
      have hfe : j.files.isEmpty = true := hc.2
      simp only [activePass, hstate, Bool.false_eq_true, if_false, hg, hfe, if_true]
      exact ihr

/-- The archived-reference pass removes the document at the first
archived candidate holding a matching REFERENCE field, regardless of
what follows; earlier candidates contribute only fetch-failure
records. -/
theorem archivedPass_finds (store : Store) (docId : String) (docJ : ItemDetail)
    (docName : String) (pre : List ItemDetail) (c : ItemDetail)
    (post : List ItemDetail) (cJ : ItemDetail)
    (hpre : ∀ x ∈ pre, archNoRef store docId x = true)
    (hcs : (c.state == "ARCHIVED") = true)
    (hcg : store.getItem c.id = some cJ)
    (hcr : (refsTo docId cJ).isEmpty = false) :
    ∃ es, archivedPass store docId docJ docName (pre ++ c :: post) =
        (es ++ [Ev.rem "referenced by archived item" docJ (some c)], true) ∧
      ∀ e ∈ es, ∃ i d, e = Ev.fail "failed to get item" i d := by
  induction pre with
  | nil =>
    refine ⟨[], ?_, by simp⟩
    simp [archivedPass, hcs, hcg, hcr]
  | cons x rest ih =>
    obtain ⟨es, heq, hall⟩ := ih (fun y hy => hpre y (List.mem_cons_of_mem x hy))
    have hx := hpre x (List.mem_cons_self x rest)
    unfold archNoRef at hx
    rw [Bool.or_eq_true] at hx
    rcases hx with hx | hx
    · have hxs : (x.state == "ARCHIVED") = false := by
        cases hs : (x.state == "ARCHIVED") with
        | false => rfl
        | true => rw [hs] at hx; simp at hx
      refine ⟨es, ?_, hall⟩
      simpa [archivedPass, hxs] using heq
    · cases hg : store.getItem x.id with
      | none =>
        cases hs : (x.state == "ARCHIVED") with
        | false =>
          refine ⟨es, ?_, hall⟩
          simpa [archivedPass, hs] using heq
        | true =>
          refine ⟨Ev.fail "failed to get item" x.title docName :: es, ?_, ?_⟩
          · simp [archivedPass, hs, hg, heq]
          · intro e he
            rcases List.mem_cons.mp he with rfl | he'
            · exact ⟨x.title, docName, rfl⟩
            · exact hall e he'
      | some j =>
        rw [hg] at hx
        rw [List.isEmpty_iff] at hx
        refine ⟨es, ?_, hall⟩
        cases hs : (x.state == "ARCHIVED") with
        | false => simpa [archivedPass, hs] using heq
        | true => simpa [archivedPass, hs, hg, hx] using heq

/-- The active-overlap pass is decided by the first active candidate
with at least one attached file, in store-returned order, regardless of
later candidates; earlier candidates contribute only fetch-failure
records. -/
theorem activePass_first (store : Store) (docId : String) (docJ : ItemDetail)
    (docName : String) (docSize : Nat) (pre : List ItemDetail) (c : ItemDetail)
    (post : List ItemDetail) (cJ : ItemDetail)
    (hpre : ∀ x ∈ pre, activeSkipped store x = true)
    (hcs : (c.state == "ARCHIVED") = false)
    (hcg : store.getItem c.id = some cJ)
    (hcf : cJ.files.isEmpty = false) :
    ∃ es, activePass store docId docJ docName docSize (pre ++ c :: post) =
        (es ++ [if cJ.files.any (fun f => f.size == docSize) then
                  Ev.rem "already attached to item (size match)" docJ (some c)
                else if cJ.files.any (fun f =>
                    f.name == pyReplaceS docName (" - " ++ c.title) "") then
                  Ev.rem "already attached to item (name match)" docJ (some c)
                else Ev.reat docId ⟨docJ, c⟩],
         (cJ.files.any (fun f => f.size == docSize) ||
          cJ.files.any (fun f => f.name == pyReplaceS docName (" - " ++ c.title) ""))) ∧
      ∀ e ∈ es, ∃ i d, e = Ev.fail "failed to get item" i d := by
  induction pre with
  | nil =>
    refine ⟨[], ?_, by simp⟩
    cases ha : cJ.files.any (fun f => f.size == docSize) with
    | true => simp [activePass, hcs, hcg, hcf, ha]
    | false =>
      cases hb : cJ.files.any (fun f => f.name == pyReplaceS docName (" - " ++ c.title) "") with
      | true => simp [activePass, hcs, hcg, hcf, ha, hb]
      | false => simp [activePass, hcs, hcg, hcf, ha, hb]
  | cons x rest ih =>
    obtain ⟨es, heq, hall⟩ := ih (fun y hy => hpre y (List.mem_cons_of_mem x hy))
    have hx := hpre x (List.mem_cons_self x rest)
    unfold activeSkipped at hx
    rw [Bool.or_eq_true] at hx
    rcases hx with hx | hx
    · refine ⟨es, ?_, hall⟩
      simpa [activePass, hx] using heq
    · cases hg : store.getItem x.id with
      | none =>
        cases hs : (x.state == "ARCHIVED") with
        | true =>
          refine ⟨es, ?_, hall⟩
          simpa [activePass, hs] using heq
        | false =>
          refine ⟨Ev.fail "failed to get item" x.title docName :: es, ?_, ?_⟩
          · simp [activePass, hs, hg, heq]
          · intro e he
            rcases List.mem_cons.mp he with rfl | he'
            · exact ⟨x.title, docName, rfl⟩
            · exact hall e he'
      | some j =>
        rw [hg] at hx
        rw [List.isEmpty_iff] at hx
        cases hs : (x.state == "ARCHIVED") with
        | true =>
          refine ⟨es, ?_, hall⟩
          simpa [activePass, hs] using heq
        | false =>
          refine ⟨es, ?_, hall⟩
          simpa [activePass, hs, hg, hx] using heq

/-- The first archived candidate holding a matching reference decides
the whole classification of the document (the active-overlap pass never
runs). -/
theorem classifyDoc_archived_wins (store : Store) (confirm : Bool)
    (removedIds : List String) (doc docJ : ItemDetail) (f0 : OPFile) (fs : List OPFile)
    (pre : List ItemDetail) (c : ItemDetail) (post : List ItemDetail) (cJ : ItemDetail)
    (hget : store.getItem doc.id = some docJ)
    (hfiles : docJ.files.filter (fun f => f.id != "") = f0 :: fs)
    (hshape : isNotUpgradeNamed docJ.title = false)
    (hsplit : matchingItems store (pyStrip ((pySplit docJ.title " - ").getLastD "")) =
      pre ++ c :: post)
    (hpre : ∀ x ∈ pre, archNoRef store doc.id x = true)
    (hcs : (c.state == "ARCHIVED") = true)
    (hcg : store.getItem c.id = some cJ)
    (hcr : (refsTo doc.id cJ).isEmpty = false) :
    ∃ es, classifyDoc store confirm removedIds doc =
        (es ++ [Ev.rem "referenced by archived item" docJ (some c)],
         removedIds ++ [doc.id]) ∧
      ∀ e ∈ es, ∃ i d, e = Ev.fail "failed to get item" i d := by
  obtain ⟨es, heq, hall⟩ :=
    archivedPass_finds store doc.id docJ docJ.title pre c post cJ hpre hcs hcg hcr
  refine ⟨es, ?_, hall⟩
  rw [← hsplit] at heq
  have hmem : (removedIds ++ [doc.id]).contains doc.id = true := by simp
  simp only [classifyDoc, hget, hfiles, hshape, Bool.false_eq_true, if_false, heq, if_true,
    hmem]

/-- Issuing the dry-marked version of a command sequence issues the
dry-marked versions of the same commands, under an oracle blind to the
marker. -/
theorem runSeq_map_setDry (ops : Cmd → Bool) (hops : ∀ c, ops (setDry c) = ops c)
    (l : List Cmd) :
    runSeq ops (l.map setDry) = ((runSeq ops l).1.map setDry, (runSeq ops l).2) := by
  induction l with
  | nil => rfl
  | cons c rest ih =>
    simp only [List.map_cons, runSeq, hops c]
    cases hc : ops c with
    | true => simp [ih]
    | false => simp

/-- Commands issued by a `try` block come from its planned sequence. -/
theorem runSeq_subset (ops : Cmd → Bool) (l : List Cmd) :
    ∀ c ∈ (runSeq ops l).1, c ∈ l := by
  induction l with
  | nil => simp [runSeq]
  | cons c rest ih =>
    intro x hx
    simp only [runSeq] at hx
    cases hc : ops c with
    | true =>
      rw [hc] at hx
      simp only [if_true] at hx
      rcases List.mem_cons.mp hx with rfl | hx'
      · exact List.mem_cons_self x rest
      · exact List.mem_cons_of_mem c (ih x hx')
    | false =>
      rw [hc] at hx
      simp only [Bool.false_eq_true, if_false] at hx
      rcases List.mem_cons.mp hx with rfl | hx'
      · exact List.mem_cons_self x rest
      · simp at hx'

/-- Delete-free blocks issue the same commands dry and live, modulo the
marker. -/
theorem runSeq_dry_block (ops : Cmd → Bool) (hops : ∀ c, ops (setDry c) = ops c)
    (l : List Cmd) (hnd : ∀ c ∈ l, isDeleteCmd c = false) :
    (runSeq ops (l.map setDry)).1 =
      ((runSeq ops l).1.filter (fun c => !isDeleteCmd c)).map setDry := by
  rw [runSeq_map_setDry ops hops]
  have hself : (runSeq ops l).1.filter (fun c => !isDeleteCmd c) = (runSeq ops l).1 := by
    apply List.filter_eq_self.mpr
    intro c hc
    rw [hnd c (runSeq_subset ops l c hc)]
    rfl
  rw [hself]

/-- Dry/live correspondence for one cleanup reattachment: when the
live run does not crash on the unbound variable, the dry run issues
exactly the live commands minus the delete, marked, leaves the
variable in the same state, and never crashes itself. -/
theorem execReatOne_cmds_dry (nfkd : List Char → List Char) (arch : Bool) (tag : String)
    (ops : Cmd → Bool) (hops : ∀ c, ops (setDry c) = ops c) (dv : Option String)
    (docId : String) (rec : ReatRec)
    (hnc : (execReatOne nfkd ⟨false, arch, tag⟩ ops dv docId rec).crashed = false) :
    (execReatOne nfkd ⟨true, arch, tag⟩ ops dv docId rec).cmds =
      (((execReatOne nfkd ⟨false, arch, tag⟩ ops dv docId rec).cmds).filter
        (fun c => !isDeleteCmd c)).map setDry ∧
    (execReatOne nfkd ⟨true, arch, tag⟩ ops dv docId rec).docVid =
      (execReatOne nfkd ⟨false, arch, tag⟩ ops dv docId rec).docVid ∧
    (execReatOne nfkd ⟨true, arch, tag⟩ ops dv docId rec).crashed = false := by
  simp only [execReatOne] at hnc ⊢
  set itmI := rec.refBy.id with hitmI
  set itmVid := rec.refBy.vaultId with hitmVid
  set docName := sanitizeS nfkd (pyReplaceS rec.doc.title (" - " ++ rec.refBy.title) "") with hdocName
  set escaped := String.mk (stripQuotes (pyReplace ['.'] [bslash, '.'] docName.toList)) with hescaped
  set outFile := outFileName docName with houtFile
  have hA : (runSeq ops [Cmd.documentGet docId itmVid outFile,
      Cmd.itemEditFile itmI itmVid true (escaped ++ "[file]=" ++ outFile)]).1 =
      ((runSeq ops [Cmd.documentGet docId itmVid outFile,
        Cmd.itemEditFile itmI itmVid false (escaped ++ "[file]=" ++ outFile)]).1.filter
          (fun c => !isDeleteCmd c)).map setDry := by
    have := runSeq_dry_block ops hops
      [Cmd.documentGet docId itmVid outFile,
       Cmd.itemEditFile itmI itmVid false (escaped ++ "[file]=" ++ outFile)]
      (by intro c hc
          rcases List.mem_cons.mp hc with rfl | hc
          · rfl
          · rcases List.mem_cons.mp hc with rfl | hc
            · rfl
            · simp at hc)
    simpa [setDry] using this
  have hBone : ∀ (i v : String) (s : String),
      (runSeq ops [Cmd.itemEditTags i v true s]).1 =
      ((runSeq ops [Cmd.itemEditTags i v false s]).1.filter
        (fun c => !isDeleteCmd c)).map setDry := by
    intro i v s
    have := runSeq_dry_block ops hops [Cmd.itemEditTags i v false s]
      (by intro c hc
          rcases List.mem_cons.mp hc with rfl | hc
          · rfl
          · simp at hc)
    simpa [setDry] using this
  have hD : ∀ (i v : String) (a : Bool),
      ((runSeq ops [Cmd.itemDelete i v a]).1.filter (fun c => !isDeleteCmd c)).map setDry
        = [] := by
    intro i v a
    cases hd : ops (Cmd.itemDelete i v a) <;> simp [runSeq, hd, isDeleteCmd]
  by_cases hcx : (!rec.doc.tags.contains (tag ++ " deleted")) = true
  · refine ⟨?_, ?_, ?_⟩
    · by_cases hb : (tag != "" && !rec.refBy.tags.contains (tag ++ " fuzzy")) = true <;>
        simp only [hb, hcx, if_true, if_false, Bool.false_eq_true, Bool.not_true,
          Bool.not_false, List.filter_append, List.map_append, List.filter_nil,
          List.map_nil, List.append_nil, List.nil_append, hA, hBone, hD]
    · simp only [hcx, if_true, Bool.false_eq_true, if_false]
    · simp only [hcx, if_true, Bool.false_eq_true, if_false]
  · rw [Bool.not_eq_true] at hcx
    cases dv with
    | none =>
      rw [hcx] at hnc
      simp at hnc
    | some v =>
      rw [hcx] at hnc ⊢
      refine ⟨?_, ?_, ?_⟩
      · by_cases hb : (tag != "" && !rec.refBy.tags.contains (tag ++ " fuzzy")) = true <;>
          simp only [hb, if_true, if_false, Bool.false_eq_true, Bool.not_true,
            Bool.not_false, List.filter_append, List.map_append, List.filter_nil,
            List.map_nil, List.append_nil, List.nil_append, hA, hBone, hD]
      · simp
      · simp

/-- Dry/live command correspondence for one cleanup removal. -/
theorem execRemOne_cmds_dry (arch : Bool) (tag : String) (ops : Cmd → Bool)
    (hops : ∀ c, ops (setDry c) = ops c) (p : ItemDetail × Option ItemDetail) :
    (execRemOne ⟨true, arch, tag⟩ ops p).1 =
      ((execRemOne ⟨false, arch, tag⟩ ops p).1.filter (fun c => !isDeleteCmd c)).map setDry := by
  simp only [execRemOne]
  have hBone : ∀ (i v : String) (s : String),
      (runSeq ops [Cmd.itemEditTags i v true s]).1 =
      ((runSeq ops [Cmd.itemEditTags i v false s]).1.filter
        (fun c => !isDeleteCmd c)).map setDry := by
    intro i v s
    have := runSeq_dry_block ops hops [Cmd.itemEditTags i v false s]
      (by intro c hc
          rcases List.mem_cons.mp hc with rfl | hc
          · rfl
          · simp at hc)
    simpa [setDry] using this
  have hD : ∀ (i v : String) (a : Bool),
      ((runSeq ops [Cmd.itemDelete i v a]).1.filter (fun c => !isDeleteCmd c)).map setDry
        = [] := by
    intro i v a
    cases hd : ops (Cmd.itemDelete i v a) <;> simp [runSeq, hd, isDeleteCmd]
  simp only [Bool.not_true, Bool.not_false, List.filter_append, List.map_append]
  by_cases hg : (!p.1.tags.contains (tag ++ " deleted")) = true <;>
    simp only [hg, if_true, if_false, Bool.false_eq_true, List.filter_nil,
      List.map_nil, List.append_nil, List.nil_append, hBone, hD]

/-- Dry/live command correspondence for the reattach queue, threading
the variable state; it needs the live queue run to be crash-free. -/
theorem execReats_cmds_dry (nfkd : List Char → List Char) (arch : Bool) (tag : String)
    (ops : Cmd → Bool) (hops : ∀ c, ops (setDry c) = ops c)
    (q : List (String × ReatRec)) (dv : Option String)
    (hnc : (execReats nfkd ⟨false, arch, tag⟩ ops dv q).crashed = false) :
    (execReats nfkd ⟨true, arch, tag⟩ ops dv q).cmds =
      (((execReats nfkd ⟨false, arch, tag⟩ ops dv q).cmds).filter
        (fun c => !isDeleteCmd c)).map setDry ∧
    (execReats nfkd ⟨true, arch, tag⟩ ops dv q).crashed = false := by
  induction q generalizing dv with
  | nil => exact ⟨rfl, rfl⟩
  | cons x rest ih =>
    obtain ⟨docId, rec⟩ := x
    cases hcr : (execReatOne nfkd ⟨false, arch, tag⟩ ops dv docId rec).crashed with
    | true =>
      simp [execReats, hcr] at hnc
    | false =>
      obtain ⟨h1, h2, h3⟩ := execReatOne_cmds_dry nfkd arch tag ops hops dv docId rec hcr
      have hnc' : (execReats nfkd ⟨false, arch, tag⟩ ops
          (execReatOne nfkd ⟨false, arch, tag⟩ ops dv docId rec).docVid rest).crashed
            = false := by
        simpa only [execReats, hcr, Bool.false_eq_true, if_false] using hnc
      obtain ⟨ih1, ih2⟩ := ih _ hnc'
      refine ⟨?_, ?_⟩
      · simp only [execReats, hcr, h3, Bool.false_eq_true, if_false,
          List.filter_append, List.map_append, h1, h2, ih1]
      · simp only [execReats, h3, Bool.false_eq_true, if_false, h2, ih2]

/-- Dry/live command correspondence for the removal list. -/
theorem execRems_cmds_dry (arch : Bool) (tag : String) (ops : Cmd → Bool)
    (hops : ∀ c, ops (setDry c) = ops c) (q : List (ItemDetail × Option ItemDetail)) :
    (execRems ⟨true, arch, tag⟩ ops q).1 =
      ((execRems ⟨false, arch, tag⟩ ops q).1.filter
        (fun c => !isDeleteCmd c)).map setDry := by
  induction q with
  | nil => rfl
  | cons x rest ih =>
    simp only [execRems, List.filter_append, List.map_append, ih,
      execRemOne_cmds_dry arch tag ops hops x]

/-- Dry/live correspondence for everything after the batch gate, when
the live run is not aborted by the unbound-variable crash. -/
theorem cleanupFinish_dry (nfkd : List Char → List Char) (arch : Bool) (tag : String)
    (ops : Cmd → Bool) (hops : ∀ c, ops (setDry c) = ops c) (events : List Ev)
    (acc : CleanAcc) (gates : List GateEv) (inputs : List String)
    (hnc : (cleanupFinish nfkd ⟨false, arch, tag⟩ ops events acc gates inputs).crashed
      = false) :
    (cleanupFinish nfkd ⟨true, arch, tag⟩ ops events acc gates inputs).events =
      (cleanupFinish nfkd ⟨false, arch, tag⟩ ops events acc gates inputs).events ∧
    (cleanupFinish nfkd ⟨true, arch, tag⟩ ops events acc gates inputs).gates =
      (cleanupFinish nfkd ⟨false, arch, tag⟩ ops events acc gates inputs).gates ∧
    (cleanupFinish nfkd ⟨true, arch, tag⟩ ops events acc gates inputs).cmds =
      (((cleanupFinish nfkd ⟨false, arch, tag⟩ ops events acc gates inputs).cmds).filter
        (fun c => !isDeleteCmd c)).map setDry := by
  have her : (execReats nfkd ⟨false, arch, tag⟩ ops none
      (dmFlat (fun k v => (k, v)) acc.reattached)).crashed = false := by
    cases h : (execReats nfkd ⟨false, arch, tag⟩ ops none
        (dmFlat (fun k v => (k, v)) acc.reattached)).crashed with
    | false => rfl
    | true => simp [cleanupFinish, h] at hnc
  obtain ⟨hq, hqc⟩ := execReats_cmds_dry nfkd arch tag ops hops
    (dmFlat (fun k v => (k, v)) acc.reattached) none her
  refine ⟨?_, ?_, ?_⟩
  · simp only [cleanupFinish, her, hqc, Bool.false_eq_true, if_false]
  · simp only [cleanupFinish, her, hqc, Bool.false_eq_true, if_false]
  · simp only [cleanupFinish, her, hqc, Bool.false_eq_true, if_false,
      List.filter_append, List.map_append, hq,
      execRems_cmds_dry arch tag ops hops]

/-- Reference processing splits over list append, threading the
response stream. -/
theorem classifyRefs_append (nfkd : List Char → List Char) (store : Store) (eff : MainEff)
    (itmId itmVid itmName itmLnk : String) (itmTags : List String)
    (xs ys : List FieldRec) (inp : List String) :
    classifyRefs nfkd store eff itmId itmVid itmName itmLnk itmTags (xs ++ ys) inp =
      ((classifyRefs nfkd store eff itmId itmVid itmName itmLnk itmTags xs inp).1 ++
        (classifyRefs nfkd store eff itmId itmVid itmName itmLnk itmTags ys
          (classifyRefs nfkd store eff itmId itmVid itmName itmLnk itmTags xs inp).2.2).1,
       (classifyRefs nfkd store eff itmId itmVid itmName itmLnk itmTags xs inp).2.1 ++
        (classifyRefs nfkd store eff itmId itmVid itmName itmLnk itmTags ys
          (classifyRefs nfkd store eff itmId itmVid itmName itmLnk itmTags xs inp).2.2).2.1,
       (classifyRefs nfkd store eff itmId itmVid itmName itmLnk itmTags ys
          (classifyRefs nfkd store eff itmId itmVid itmName itmLnk itmTags xs inp).2.2).2.2) := by
  induction xs generalizing inp with
  | nil => simp [classifyRefs]
  | cons r rest ih =>
    simp only [List.cons_append, classifyRefs, List.append_eq, ih, List.append_assoc]

/-- Reference processing consumes exactly one response per reference
that reaches the supervised gate; the set of gate-reaching references is
a function of the snapshot, so events depend only on the consumed
prefix. -/
theorem classifyRefs_consume (nfkd : List Char → List Char) (store : Store) (eff : MainEff)
    (itmId itmVid itmName itmLnk : String) (itmTags : List String)
    (xs : List FieldRec) (pre rest : List String)
    (h : countConsumes store eff xs = pre.length) :
    classifyRefs nfkd store eff itmId itmVid itmName itmLnk itmTags xs (pre ++ rest) =
      ((classifyRefs nfkd store eff itmId itmVid itmName itmLnk itmTags xs pre).1,
       (classifyRefs nfkd store eff itmId itmVid itmName itmLnk itmTags xs pre).2.1,
       rest) := by
  induction xs generalizing pre with
  | nil =>
    have hp : pre = [] := by
      have : pre.length = 0 := by
        simpa [countConsumes] using h.symm
      exact List.length_eq_zero.mp this
    subst hp
    simp [classifyRefs]
  | cons r rest' ih =>
    cases hcon : refConsumes store eff r with
    | true =>
      have hlen : countConsumes store eff rest' + 1 = pre.length := by
        simpa [countConsumes, List.countP_cons, hcon] using h
      cases pre with
      | nil => simp at hlen
      | cons p pre' =>
        have hlen' : countConsumes store eff rest' = pre'.length := by
          simpa using hlen
        simp only [classifyRefs, hcon, if_true, List.cons_append, popInput,
          ih pre' hlen']
    | false =>
      have hlen' : countConsumes store eff rest' = pre.length := by
        simpa [countConsumes, List.countP_cons, hcon] using h
      simp only [classifyRefs, hcon, Bool.false_eq_true, if_false, ih pre hlen']

/-- Every prompt recorded by the reference loop is a per-record one. -/
theorem classifyRefs_gates_perRef (nfkd : List Char → List Char) (store : Store)
    (eff : MainEff) (itmId itmVid itmName itmLnk : String) (itmTags : List String)
    (refs : List FieldRec) (inp : List String) :
    ∀ g ∈ (classifyRefs nfkd store eff itmId itmVid itmName itmLnk itmTags refs inp).2.1,
      ∃ i d r, g = GateEv.perRef i d r := by
  induction refs generalizing inp with
  | nil => simp [classifyRefs]
  | cons r rest ih =>
    intro g hg
    simp only [classifyRefs] at hg
    rcases List.mem_append.mp hg with hg | hg
    · cases hcon : refConsumes store eff r with
      | true =>
        rw [hcon] at hg
        simp only [if_true] at hg
        rcases List.mem_cons.mp hg with rfl | hg'
        · exact ⟨itmName, r.value, _, rfl⟩
        · simp at hg'
      | false =>
        rw [hcon] at hg
        simp at hg
    · exact ih _ g hg

/-- Every prompt recorded while processing one item is a per-record
one. -/
theorem classifyItem_gates_perRef (nfkd : List Char → List Char) (store : Store)
    (eff : MainEff) (itm : ItemDetail) (inp : List String) :
    ∀ g ∈ (classifyItem nfkd store eff itm inp).2.1, ∃ i d r, g = GateEv.perRef i d r := by
  intro g hg
  simp only [classifyItem] at hg
  cases hgi : store.getItem itm.id with
  | none => rw [hgi] at hg; simp at hg
  | some itmJ =>
    rw [hgi] at hg
    cases hlk : (if eff.generateShareLinks then store.getShareLink itm.id else some "") with
    | none => rw [hlk] at hg; simp at hg
    | some itmLnk =>
      rw [hlk] at hg
      exact classifyRefs_gates_perRef nfkd store eff itm.id itmJ.vaultId
        itmJ.title itmLnk itmJ.tags _ inp g hg

/-- Every prompt recorded by the item loop is a per-record one. -/
theorem classifyItems_gates_perRef (nfkd : List Char → List Char) (store : Store)
    (eff : MainEff) (itms : List ItemDetail) (inp : List String) :
    ∀ g ∈ (classifyItems nfkd store eff itms inp).2.1, ∃ i d r, g = GateEv.perRef i d r := by
  induction itms generalizing inp with
  | nil => simp [classifyItems]
  | cons itm rest ih =>
    intro g hg
    simp only [classifyItems] at hg
    rcases List.mem_append.mp hg with hg | hg
    · exact classifyItem_gates_perRef nfkd store eff itm inp g hg
    · exact ih _ g hg

/-- Every prompt recorded during reference-mode classification is a
per-record one. -/
theorem mainClassify_gates_perRef (nfkd : List Char → List Char) (store : Store)
    (eff : MainEff) (itemWL itemBL tagWL tagBL : List String) (inp : List String) :
    ∀ g ∈ (mainClassify nfkd store eff itemWL itemBL tagWL tagBL inp).2.1,
      ∃ i d r, g = GateEv.perRef i d r := by
  simp only [mainClassify]
  exact classifyItems_gates_perRef nfkd store eff _ inp

/-- The post-gate phase of `cleanup_documents` adds at most a
pending-removal prompt to the gate log. -/
theorem cleanupFinish_gates (nfkd : List Char → List Char) (eff : CleanEff)
    (ops : Cmd → Bool) (events : List Ev) (acc : CleanAcc) (gates0 : List GateEv)
    (inputs : List String) :
    (cleanupFinish nfkd eff ops events acc gates0 inputs).gates = gates0 ∨
    ∃ rr, (cleanupFinish nfkd eff ops events acc gates0 inputs).gates =
      gates0 ++ [GateEv.pendingG rr] := by
  simp only [cleanupFinish]
  by_cases hp : dmTotal acc.pending > 0
  · right
    exact ⟨(popInput inputs).1, by simp [hp, apply_ite CleanResult.gates]⟩
  · left
    simp [hp, apply_ite CleanResult.gates]

/-- Declining the reference-mode batch gate means no command is ever
issued to the store. -/
theorem mainRun_batch_decline (nfkd : List Char → List Char) (cfg : CleanCfg)
    (store : Store) (ops : Cmd → Bool) (inputs : List String) (resp : String)
    (hmem : GateEv.batch resp ∈ (mainRun nfkd cfg store ops inputs).gates)
    (hno : isNo resp = true) :
    (mainRun nfkd cfg store ops inputs).cmds = [] := by
  simp only [mainRun] at hmem ⊢
  set eff : MainEff :=
    { dryRun := cfg.dryRun, archiveDocs := cfg.archiveDocs,
      superviseRun := cfg.superviseRun,
      verbose := cfg.verbose || cfg.superviseRun,
      generateShareLinks := cfg.generateShareLinks || cfg.superviseRun,
      confirm := cfg.confirmBeforeModifying || cfg.superviseRun,
      tag := normTag cfg.reattachedTag,
      docWhitelist := cfg.docWhitelist, docBlacklist := cfg.docBlacklist } with heff
  set cl := mainClassify nfkd store eff cfg.itemWhitelist cfg.itemBlacklist
    cfg.tagWhitelist cfg.tagBlacklist inputs with hcl
  by_cases h0 : (dmTotal (mainReatQueue cl.1) == 0) = true
  · rw [h0]
    simp
  · rw [Bool.not_eq_true] at h0
    rw [h0] at hmem ⊢
    simp only [Bool.false_eq_true, if_false] at hmem ⊢
    by_cases hcf : (cfg.confirmBeforeModifying || cfg.superviseRun) = true
    · rw [hcf] at hmem ⊢
      simp only [if_true] at hmem ⊢
      by_cases hn : isNo (popInput cl.2.2).1 = true
      · simp [hn]
      · rw [Bool.not_eq_true] at hn
        rw [hn] at hmem ⊢
        simp only [Bool.false_eq_true, if_false] at hmem ⊢
        exfalso
        rw [mainFinish] at hmem
        simp only at hmem
        rcases List.mem_append.mp hmem with hmem | hmem
        · obtain ⟨i, d, r, habs⟩ := mainClassify_gates_perRef nfkd store eff
            cfg.itemWhitelist cfg.itemBlacklist cfg.tagWhitelist cfg.tagBlacklist inputs
            (GateEv.batch resp) hmem
          simp at habs
        · rcases List.mem_cons.mp hmem with heq | habs
          · injection heq with h1
            rw [← h1] at hn
            rw [hno] at hn
            simp at hn
          · simp at habs
    · rw [Bool.not_eq_true] at hcf
      rw [hcf] at hmem ⊢
      simp only [Bool.false_eq_true, if_false] at hmem ⊢
      exfalso
      rw [mainFinish] at hmem
      simp only at hmem
      obtain ⟨i, d, r, habs⟩ := mainClassify_gates_perRef nfkd store eff
        cfg.itemWhitelist cfg.itemBlacklist cfg.tagWhitelist cfg.tagBlacklist inputs
        (GateEv.batch resp) hmem
      simp at habs

/-- Declining the cleanup-mode batch gate means no command is ever
issued to the store. -/
theorem cleanup_batch_decline (nfkd : List Char → List Char) (cfg : CleanCfg)
    (store : Store) (ops : Cmd → Bool) (inputs : List String) (resp : String)
    (hmem : GateEv.batch resp ∈ (cleanup_documents nfkd cfg store ops inputs).gates)
    (hno : isNo resp = true) :
    (cleanup_documents nfkd cfg store ops inputs).cmds = [] := by
  simp only [cleanup_documents] at hmem ⊢
  set confirm := cfg.confirmBeforeModifying || cfg.superviseRun with hconfirm
  set eff : CleanEff := ⟨cfg.dryRun, cfg.archiveDocs, normTag cfg.reattachedTag⟩ with heff
  set events := cleanupClassify store confirm cfg.itemWhitelist cfg.itemBlacklist
    cfg.docWhitelist cfg.docBlacklist cfg.tagWhitelist cfg.tagBlacklist with hevents
  set acc := accOf events with hacc
  by_cases hc : (confirm && (dmTotal acc.reattached > 0 || dmTotal acc.removed > 0)) = true
  · rw [hc] at hmem ⊢
    simp only [if_true] at hmem ⊢
    by_cases hn : isNo (popInput inputs).1 = true
    · simp [hn]
    · rw [Bool.not_eq_true] at hn
      rw [hn] at hmem ⊢
      simp only [Bool.false_eq_true, if_false] at hmem ⊢
      exfalso
      rcases cleanupFinish_gates nfkd eff ops events acc
        [GateEv.batch (popInput inputs).1] (popInput inputs).2 with hg | ⟨rr, hg⟩ <;>
        rw [hg] at hmem
      · rcases List.mem_cons.mp hmem with heq | habs
        · injection heq with h1
          rw [← h1] at hn
          rw [hno] at hn
          simp at hn
        · simp at habs
      · rcases List.mem_append.mp hmem with hmem' | habs
        · rcases List.mem_cons.mp hmem' with heq | habs
          · injection heq with h1
            rw [← h1] at hn
            rw [hno] at hn
            simp at hn
          · simp at habs
        · simp at habs
  · rw [Bool.not_eq_true] at hc
    rw [hc] at hmem ⊢
    simp only [Bool.false_eq_true, if_false] at hmem ⊢
    exfalso
    rcases cleanupFinish_gates nfkd eff ops events acc [] inputs with hg | ⟨rr, hg⟩ <;>
      rw [hg] at hmem
    · simp at hmem
    · simp at hmem

/-- Declining one supervised per-record prompt converts exactly that
reference into a user-skipped record and leaves every other
reference's processing (before and after) untouched. -/
theorem classifyRefs_decline_local (nfkd : List Char → List Char) (store : Store)
    (eff : MainEff) (itmId itmVid itmName itmLnk : String) (itmTags : List String)
    (refsBefore : List FieldRec) (r : FieldRec) (refsAfter : List FieldRec)
    (pre : List String) (x : String) (post : List String)
    (hlen : countConsumes store eff refsBefore = pre.length)
    (hr : refConsumes store eff r = true) :
    (classifyRefs nfkd store eff itmId itmVid itmName itmLnk itmTags
        (refsBefore ++ r :: refsAfter) (pre ++ x :: post) =
      ((classifyRefs nfkd store eff itmId itmVid itmName itmLnk itmTags refsBefore pre).1 ++
        classifyRef nfkd store eff itmId itmVid itmName itmLnk itmTags x r ++
        (classifyRefs nfkd store eff itmId itmVid itmName itmLnk itmTags refsAfter post).1,
       (classifyRefs nfkd store eff itmId itmVid itmName itmLnk itmTags refsBefore pre).2.1 ++
        GateEv.perRef itmName r.value x ::
        (classifyRefs nfkd store eff itmId itmVid itmName itmLnk itmTags refsAfter post).2.1,
       (classifyRefs nfkd store eff itmId itmVid itmName itmLnk itmTags refsAfter post).2.2)) ∧
    (isNo x = true → ∃ docName, classifyRef nfkd store eff itmId itmVid itmName itmLnk
        itmTags x r = [Ev.mskip "user skipped" itmName docName itmLnk]) := by
  constructor
  · rw [classifyRefs_append, classifyRefs_consume nfkd store eff itmId itmVid itmName
      itmLnk itmTags refsBefore pre (x :: post) hlen]
    simp only [classifyRefs, hr, if_true, popInput, List.append_assoc, List.cons_append,
      List.nil_append]
  · intro hno
    have hsup : eff.superviseRun = true := by
      rcases Bool.and_eq_true_iff.mp hr with ⟨h1, -⟩
      exact h1
    rcases Bool.and_eq_true_iff.mp hr with ⟨-, h2⟩
    cases hget : store.getItem r.value with
    | none => rw [hget] at h2; simp at h2
    | some refJ =>
      rw [hget] at h2
      rcases Bool.and_eq_true_iff.mp h2 with ⟨h3, h4⟩
      rcases Bool.and_eq_true_iff.mp h3 with ⟨hwb, hcat⟩
      have hwb' : wblaDenies (allowed_by_white_black_lists refJ.title
          eff.docWhitelist eff.docBlacklist false) = false := by
        cases hw : wblaDenies (allowed_by_white_black_lists refJ.title
            eff.docWhitelist eff.docBlacklist false) with
        | false => rfl
        | true => rw [hw] at hwb; simp at hwb
      have hlnk : (eff.verbose && eff.generateShareLinks &&
          (store.getShareLink r.value).isNone) = false := by
        cases hv : eff.verbose <;> cases hg : eff.generateShareLinks <;>
          cases hn : (store.getShareLink r.value).isNone <;> simp_all
      refine ⟨sanitizeS nfkd (pyReplaceS refJ.title (" - " ++ itmName) ""), ?_⟩
      have hcat' : (refJ.category != "DOCUMENT") = false := by
        rw [beq_iff_eq] at hcat
        simp [hcat]
      simp only [classifyRef, hget, hwb', Bool.false_eq_true, if_false, hcat', hlnk,
        hsup, hno, Bool.and_self, if_true]

/-! ## Claims -/

set_option maxRecDepth 60000

/-- C1 (counterexample): on the spec's own example — document
`"Passport - Jane Doe"` with one attached file, owner item `"Jane Doe"`
active with no attached files — cleanup classification yields
`Skip{no matching items}` and queues no reattachment at all: the
active-overlap loop skips candidates without files (line 270 of the
source), so the claimed `Reattach{name-fuzzy}` decision never
happens. -/
theorem c1_counterexample :
    cleanupClassify c1store false [] [] [] [] [] [] =
      [Ev.skip "no matching items" "Passport - Jane Doe"] := by
  decide

/-- C1 (amended): in cleanup mode, for a document with at least one
attached file and an upgrade-shaped title, when every matching item is
an ACTIVE, fetchable item with no attached files, the document is
classified as no-matching-items (`RemovePending` under confirmation,
otherwise `Skip`) — not reattached. -/
theorem c1_amended (store : Store) (confirm : Bool) (removedIds : List String)
    (doc docJ : ItemDetail) (f0 : OPFile) (fs : List OPFile)
    (hget : store.getItem doc.id = some docJ)
    (hfiles : docJ.files.filter (fun f => f.id != "") = f0 :: fs)
    (hshape : isNotUpgradeNamed docJ.title = false)
    (hcands : ∀ c ∈ matchingItems store (pyStrip ((pySplit docJ.title " - ").getLastD "")),
      candActiveNoFiles store c = true)
    (hrm : removedIds.contains doc.id = false) :
    classifyDoc store confirm removedIds doc =
      ([if confirm then Ev.pend "no matching items" docJ
        else Ev.skip "no matching items" docJ.title], removedIds) := by
  have harch := archivedPass_skip_all store doc.id docJ docJ.title
    (matchingItems store (pyStrip ((pySplit docJ.title " - ").getLastD "")))
    (fun c hc => by
      have := hcands c hc
      unfold candActiveNoFiles at this
      rw [Bool.and_eq_true] at this
      rcases this with ⟨h1, -⟩
      cases hs : (c.state == "ARCHIVED") with
      | false => rfl
      | true => rw [hs] at h1; simp at h1)
  have hact := activePass_skip_all store doc.id docJ docJ.title f0.size
    (matchingItems store (pyStrip ((pySplit docJ.title " - ").getLastD ""))) hcands
  simp only [classifyDoc, hget, hfiles, hshape, Bool.false_eq_true, if_false,
    harch, hact, hrm, List.nil_append]

/-- C1 (witness): the amended theorem applied to the concrete
example store. -/
theorem c1_amended_witness :
    classifyDoc c1store false [] c1doc =
      ([Ev.skip "no matching items" "Passport - Jane Doe"], []) := by
  have h := c1_amended c1store false [] c1doc c1doc ⟨"f1", "Passport", 100⟩ []
    (by decide) (by decide) (by decide) (by decide) (by decide)
  rw [h]
  decide

/-- C2 (code bug): the final cleanup CSV is supposed to contain every
classified document exactly once, but a document that is fuzzy-
reattached falls through to the "no matching items" bucket as well
(lines 284–301 of the source execute the "Nothing matched" path even
after a match was queued), so it is exported twice — once as
`reattached` and once as `skipped`. -/
theorem c2_code_bug :
    ((cleanup_documents (fun l => l) { baseCfg with dryRun := true } c2store
        (fun _ => true) []).csv.getD []).countP
      (fun row => row.headD "" == "Report - Jane") = 2 ∧
    (cleanup_documents (fun l => l) { baseCfg with dryRun := true } c2store
        (fun _ => true) []).csv =
      some [["document", "action", "item", "reason"],
            ["Report - Jane", "reattached", "Jane", "matched by item/doc name"],
            ["Report - Jane", "skipped", "", "no matching items"]] := by
  constructor <;> decide

/-- C3 (counterexample): in reference mode, one `try` block wraps the
whole reattach sequence (lines 701–732 of the source), so when the
first step (file download) fails, none of the later steps
(attach, reference delete, tag, delete) is attempted for that decision
— only the download command is ever issued. -/
theorem c3_counterexample :
    (mainRun (fun l => l) baseCfg c3store failDocGet []).cmds =
      [Cmd.documentGet "d3" "v1" "tmp/p.pdf"] ∧
    (mainRun (fun l => l) baseCfg c3store failDocGet []).execEvents =
      [Ev.mfail "failed to reattach document" "Jane" "Passport" ""] := by
  constructor <;> decide

/-- C3 (amended): in reference mode each queued decision's execution is
independent of the others (the queue decomposes pointwise), but the
single `try` block makes a failure abort the remaining steps of that
one decision (see the counterexample).  In cleanup mode the sequence is
caught in four independent blocks, so on the normal path (the document
not yet tagged `"<tag> deleted"`) the live delete step is attempted no
matter what failed before it and the step never crashes; but when a
queued document already carries that tag, Python leaves `doc_vid`
unbound, and with the variable unbound the live delete step raises an
uncaught `NameError`: no delete command is ever issued for that
document and the crash aborts the whole remaining queue. -/
theorem c3_amended :
    (∀ (eff : MainEff) (ops : Cmd → Bool) (q : String × MReatRec)
       (rest : List (String × MReatRec)),
      mainExec eff ops (q :: rest) =
        ((mainExecOne eff ops q.1 q.2).1 ++ (mainExec eff ops rest).1,
         (mainExecOne eff ops q.1 q.2).2 ++ (mainExec eff ops rest).2)) ∧
    (∀ (nfkd : List Char → List Char) (eff : CleanEff) (ops : Cmd → Bool)
       (dv : Option String) (docId : String) (rec : ReatRec), eff.dryRun = false →
      rec.doc.tags.contains (eff.tag ++ " deleted") = false →
      Cmd.itemDelete docId rec.doc.vaultId eff.archiveDocs ∈
        (execReatOne nfkd eff ops dv docId rec).cmds ∧
      (execReatOne nfkd eff ops dv docId rec).crashed = false) ∧
    (∀ (nfkd : List Char → List Char) (eff : CleanEff) (ops : Cmd → Bool)
       (docId : String) (rec : ReatRec), eff.dryRun = false →
      rec.doc.tags.contains (eff.tag ++ " deleted") = true →
      (execReatOne nfkd eff ops none docId rec).crashed = true ∧
      ∀ i v a, Cmd.itemDelete i v a ∉ (execReatOne nfkd eff ops none docId rec).cmds) ∧
    (∀ (nfkd : List Char → List Char) (eff : CleanEff) (ops : Cmd → Bool)
       (dv : Option String) (docId : String) (rec : ReatRec)
       (rest : List (String × ReatRec)),
      (execReatOne nfkd eff ops dv docId rec).crashed = true →
      execReats nfkd eff ops dv ((docId, rec) :: rest) =
        ⟨(execReatOne nfkd eff ops dv docId rec).cmds,
         (execReatOne nfkd eff ops dv docId rec).events, true⟩) := by
  refine ⟨?_, ?_, ?_, ?_⟩
  · intro eff ops q rest
    cases q with
    | mk refId rec => rfl
  · intro nfkd eff ops dv docId rec hdry htag
    have hcx : (!rec.doc.tags.contains (eff.tag ++ " deleted")) = true := by
      rw [htag]; rfl
    constructor
    · simp only [execReatOne, hdry, hcx, if_true, Bool.false_eq_true, if_false]
      refine List.mem_append.mpr (Or.inr ?_)
      cases hd : ops (Cmd.itemDelete docId rec.doc.vaultId eff.archiveDocs) <;>
        simp [runSeq, hd]
    · simp only [execReatOne, hdry, hcx, if_true, Bool.false_eq_true, if_false]
  · intro nfkd eff ops docId rec hdry htag
    have hcx : (!rec.doc.tags.contains (eff.tag ++ " deleted")) = false := by
      rw [htag]; rfl
    constructor
    · simp only [execReatOne, hdry, hcx, Bool.false_eq_true, if_false]
    · intro i v a hmem
      cases hb : (eff.tag != "" && !rec.refBy.tags.contains (eff.tag ++ " fuzzy")) with
      | true =>
        simp only [execReatOne, hdry, hcx, hb, if_true, Bool.false_eq_true, if_false,
          List.append_nil] at hmem
        rcases List.mem_append.mp hmem with hm | hm
        · have h := runSeq_subset ops _ _ hm
          simp at h
        · have h := runSeq_subset ops _ _ hm
          simp at h
      | false =>
        simp only [execReatOne, hdry, hcx, hb, if_true, Bool.false_eq_true, if_false,
          List.append_nil] at hmem
        have h := runSeq_subset ops _ _ hmem
        simp at h
  · intro nfkd eff ops dv docId rec rest hcr
    simp only [execReats, hcr, if_true]

/-- C3 (witness): queue isolation in reference mode; the cleanup delete
attempted (crash-free) for an untagged document despite the failing
download; the crash with no delete for a pre-tagged document; and the
crash aborting the rest of the queue. -/
theorem c3_amended_witness :
    (mainExec plainEff failDocGet [("d3", c3rec)] =
      ((mainExecOne plainEff failDocGet "d3" c3rec).1 ++
        (mainExec plainEff failDocGet []).1,
       (mainExecOne plainEff failDocGet "d3" c3rec).2 ++
        (mainExec plainEff failDocGet []).2)) ∧
    (Cmd.itemDelete "d2" "v1" true ∈
      (execReatOne (fun l => l) plainCleanEff failDocGet none "d2" ⟨c2doc, c2item⟩).cmds ∧
     (execReatOne (fun l => l) plainCleanEff failDocGet none "d2" ⟨c2doc, c2item⟩).crashed
       = false) ∧
    ((execReatOne (fun l => l) plainCleanEff (fun _ => true) none "d7"
        ⟨preTaggedDoc, c2item⟩).crashed = true ∧
     ∀ i v a, Cmd.itemDelete i v a ∉
       (execReatOne (fun l => l) plainCleanEff (fun _ => true) none "d7"
         ⟨preTaggedDoc, c2item⟩).cmds) ∧
    execReats (fun l => l) plainCleanEff (fun _ => true) none
        [("d7", ⟨preTaggedDoc, c2item⟩)] =
      ⟨(execReatOne (fun l => l) plainCleanEff (fun _ => true) none "d7"
          ⟨preTaggedDoc, c2item⟩).cmds,
       (execReatOne (fun l => l) plainCleanEff (fun _ => true) none "d7"
          ⟨preTaggedDoc, c2item⟩).events, true⟩ :=
  ⟨c3_amended.1 plainEff failDocGet ("d3", c3rec) [],
   c3_amended.2.1 (fun l => l) plainCleanEff failDocGet none "d2" ⟨c2doc, c2item⟩
     rfl (by decide),
   c3_amended.2.2.1 (fun l => l) plainCleanEff (fun _ => true) "d7" ⟨preTaggedDoc, c2item⟩
     rfl (by decide),
   c3_amended.2.2.2 (fun l => l) plainCleanEff (fun _ => true) none "d7"
     ⟨preTaggedDoc, c2item⟩ [] (by decide)⟩

/-- C4: in reference mode, a referenced document with more than one
attached file gets a `Skip{more than one file}` record AND, because the
skip does not `continue`, a reattach decision carrying the document's
first file is still queued for the same document. -/
theorem c4_skip_and_queue (nfkd : List Char → List Char) (store : Store) (eff : MainEff)
    (itmId itmVid itmName itmLnk : String) (itmTags : List String) (resp : String)
    (ref : FieldRec) (refJ : ItemDetail) (f0 f1 : OPFile) (fs : List OPFile)
    (hget : store.getItem ref.value = some refJ)
    (hwb : wblaDenies (allowed_by_white_black_lists refJ.title
      eff.docWhitelist eff.docBlacklist false) = false)
    (hcat : refJ.category = "DOCUMENT")
    (hlnk : eff.verbose = false ∨ eff.generateShareLinks = false ∨
      (store.getShareLink ref.value).isSome = true)
    (hgate : eff.superviseRun = false ∨ isNo resp = false)
    (hfiles : refJ.files = f0 :: f1 :: fs) :
    classifyRef nfkd store eff itmId itmVid itmName itmLnk itmTags resp ref =
      [Ev.mskip "more than one file" itmName
         (sanitizeS nfkd (pyReplaceS refJ.title (" - " ++ itmName) "")) itmLnk,
       Ev.mreat ref.value
         { item := itmName
           doc := sanitizeS nfkd (pyReplaceS refJ.title (" - " ++ itmName) "")
           link := itmLnk
           refVid := refJ.vaultId
           refNameEscaped := String.mk (stripQuotes (pyReplace ['.'] [bslash, '.'] f0.name.toList))
           refSec := ref.sectionLabel
           refFieldId := ref.fieldId
           refFileName := f0.name
           itemId := itmId
           itemVid := itmVid
           itemTags := itmTags
           docTags := refJ.tags }] := by
  have hlnk' : (eff.verbose && eff.generateShareLinks &&
      (store.getShareLink ref.value).isNone) = false := by
    rcases hlnk with h | h | h <;> simp [h]
  have hgate' : (eff.superviseRun && isNo resp) = false := by
    rcases hgate with h | h <;> simp [h]
  have hl : 1 < (f0 :: f1 :: fs : List OPFile).length := by
    simp only [List.length_cons]
    omega
  simp only [classifyRef, hget, hwb, Bool.false_eq_true, if_false, hcat,
    bne_self_eq_false, hlnk', hgate', hfiles]
  simp [hl, sanitizeS, pyReplaceS]

/-- C4 (witness): the theorem at the concrete two-file document. -/
theorem c4_witness :
    classifyRef (fun l => l) c4store plainEff "i4" "v1" "Jane" "" [] "" c4ref =
      [Ev.mskip "more than one file" "Jane" "Scan" "",
       Ev.mreat "d4"
         { item := "Jane", doc := "Scan", link := "", refVid := "v1"
           refNameEscaped := "a\\.pdf", refSec := "s", refFieldId := "f"
           refFileName := "a.pdf", itemId := "i4", itemVid := "v1"
           itemTags := [], docTags := [] }] := by
  have h := c4_skip_and_queue (fun l => l) c4store plainEff "i4" "v1" "Jane" "" [] "" c4ref
    c4doc ⟨"f4", "a.pdf", 3⟩ ⟨"f5", "b.pdf", 4⟩ []
    (by decide) (by decide) (by decide) (Or.inl rfl) (Or.inl rfl) (by decide)
  rw [h]
  decide

/-- C5: for a cleanup document with at least one file and an
upgrade-shaped title, the first archived matching item holding a
REFERENCE to the document decides the classification as
`Remove{referenced by archived item}`, regardless of every candidate
after it (archived scan stops at the first match) and outranking any
active-overlap removal or fuzzy reattachment (the active pass never
runs); and when no archived reference matched, the first active
candidate with at least one file, in store-returned order, decides the
active-overlap outcome regardless of later candidates. -/
theorem c5_archived_precedence :
    (∀ (store : Store) (confirm : Bool) (removedIds : List String)
       (doc docJ : ItemDetail) (f0 : OPFile) (fs : List OPFile)
       (pre : List ItemDetail) (c : ItemDetail) (post : List ItemDetail)
       (cJ : ItemDetail),
      store.getItem doc.id = some docJ →
      docJ.files.filter (fun f => f.id != "") = f0 :: fs →
      isNotUpgradeNamed docJ.title = false →
      matchingItems store (pyStrip ((pySplit docJ.title " - ").getLastD "")) =
        pre ++ c :: post →
      (∀ x ∈ pre, archNoRef store doc.id x = true) →
      (c.state == "ARCHIVED") = true →
      store.getItem c.id = some cJ →
      (refsTo doc.id cJ).isEmpty = false →
      ∃ es, classifyDoc store confirm removedIds doc =
          (es ++ [Ev.rem "referenced by archived item" docJ (some c)],
           removedIds ++ [doc.id]) ∧
        ∀ e ∈ es, ∃ i d, e = Ev.fail "failed to get item" i d) ∧
    (∀ (store : Store) (docId : String) (docJ : ItemDetail) (docName : String)
       (docSize : Nat) (pre : List ItemDetail) (c : ItemDetail)
       (post : List ItemDetail) (cJ : ItemDetail),
      (∀ x ∈ pre, activeSkipped store x = true) →
      (c.state == "ARCHIVED") = false →
      store.getItem c.id = some cJ →
      cJ.files.isEmpty = false →
      ∃ es, activePass store docId docJ docName docSize (pre ++ c :: post) =
          (es ++ [if cJ.files.any (fun f => f.size == docSize) then
                    Ev.rem "already attached to item (size match)" docJ (some c)
                  else if cJ.files.any (fun f =>
                      f.name == pyReplaceS docName (" - " ++ c.title) "") then
                    Ev.rem "already attached to item (name match)" docJ (some c)
                  else Ev.reat docId ⟨docJ, c⟩],
           (cJ.files.any (fun f => f.size == docSize) ||
            cJ.files.any (fun f =>
              f.name == pyReplaceS docName (" - " ++ c.title) ""))) ∧
        ∀ e ∈ es, ∃ i d, e = Ev.fail "failed to get item" i d) := by
  constructor
  · intro store confirm removedIds doc docJ f0 fs pre c post cJ hget hfiles hshape
      hsplit hpre hcs hcg hcr
    exact classifyDoc_archived_wins store confirm removedIds doc docJ f0 fs pre c post cJ
      hget hfiles hshape hsplit hpre hcs hcg hcr
  · intro store docId docJ docName docSize pre c post cJ hpre hcs hcg hcf
    exact activePass_first store docId docJ docName docSize pre c post cJ hpre hcs hcg hcf

/-- C5 (witness): the archived owner `c5arch`, listed after the active
owner `c5active`, still wins; and the active pass instance at the
active owner. -/
theorem c5_witness :
    (∃ es, classifyDoc c5store false [] c5doc =
        (es ++ [Ev.rem "referenced by archived item" c5doc (some c5arch)],
         [] ++ ["d5"]) ∧
      ∀ e ∈ es, ∃ i d, e = Ev.fail "failed to get item" i d) ∧
    (∃ es, activePass c5store "d5" c5doc "Deed - Jane" 5 ([] ++ c5active :: [c5arch]) =
        (es ++ [if c5active.files.any (fun f => f.size == 5) then
                  Ev.rem "already attached to item (size match)" c5doc (some c5active)
                else if c5active.files.any (fun f =>
                    f.name == pyReplaceS "Deed - Jane" (" - " ++ c5active.title) "") then
                  Ev.rem "already attached to item (name match)" c5doc (some c5active)
                else Ev.reat "d5" ⟨c5doc, c5active⟩],
         (c5active.files.any (fun f => f.size == 5) ||
          c5active.files.any (fun f =>
            f.name == pyReplaceS "Deed - Jane" (" - " ++ c5active.title) ""))) ∧
      ∀ e ∈ es, ∃ i d, e = Ev.fail "failed to get item" i d) := by
  constructor
  · exact c5_archived_precedence.1 c5store false [] c5doc c5doc ⟨"f6", "Deed", 5⟩ [] [c5active]
      c5arch [] c5arch (by decide) (by decide) (by decide) (by decide) (by decide)
      (by decide) (by decide) (by decide)
  · exact c5_archived_precedence.2 c5store "d5" c5doc "Deed - Jane" 5 [] c5active [c5arch] c5active
      (by decide) (by decide) (by decide) (by decide)

/-- C6 (counterexample): a dry run does not issue the identical
mutation step sequence with simulate markers — the `item delete` call
is guarded by `if not dry_run` (lines 395 and 421 of the source) and is
omitted entirely, so the dry command sequence is strictly shorter than
the marked live one. -/
theorem c6_counterexample :
    (cleanup_documents (fun l => l) { baseCfg with dryRun := false } c2store
        (fun _ => true) []).cmds =
      [Cmd.documentGet "d2" "v1" "tmp/Report",
       Cmd.itemEditFile "i2" "v1" false "Report[file]=tmp/Report",
       Cmd.itemEditTags "d2" "v1" false "\" deleted\"",
       Cmd.itemDelete "d2" "v1" true] ∧
    (cleanup_documents (fun l => l) { baseCfg with dryRun := true } c2store
        (fun _ => true) []).cmds =
      [Cmd.documentGet "d2" "v1" "tmp/Report",
       Cmd.itemEditFile "i2" "v1" true "Report[file]=tmp/Report",
       Cmd.itemEditTags "d2" "v1" true "\" deleted\""] ∧
    (cleanup_documents (fun l => l) { baseCfg with dryRun := true } c2store
        (fun _ => true) []).cmds ≠
      ((cleanup_documents (fun l => l) { baseCfg with dryRun := false } c2store
        (fun _ => true) []).cmds).map setDry := by
  refine ⟨?_, ?_, ?_⟩ <;> decide

/-- C6 (amended): when the live run is not aborted by the
unbound-`doc_vid` `NameError`, a dry run produces the identical
classification and gate interactions as the live run, and its command
sequence is exactly the live sequence with the `item delete` calls
omitted and the `--dry-run` marker set on every `item edit` (for any
store-failure oracle blind to the marker). -/
theorem c6_amended (nfkd : List Char → List Char) (cfg : CleanCfg) (store : Store)
    (ops : Cmd → Bool) (inputs : List String)
    (hops : ∀ c, ops (setDry c) = ops c)
    (hnc : (cleanup_documents nfkd { cfg with dryRun := false } store ops inputs).crashed
      = false) :
    (cleanup_documents nfkd { cfg with dryRun := true } store ops inputs).events =
      (cleanup_documents nfkd { cfg with dryRun := false } store ops inputs).events ∧
    (cleanup_documents nfkd { cfg with dryRun := true } store ops inputs).gates =
      (cleanup_documents nfkd { cfg with dryRun := false } store ops inputs).gates ∧
    (cleanup_documents nfkd { cfg with dryRun := true } store ops inputs).cmds =
      (((cleanup_documents nfkd { cfg with dryRun := false } store ops inputs).cmds).filter
        (fun c => !isDeleteCmd c)).map setDry := by
  simp only [cleanup_documents] at hnc ⊢
  by_cases hc : ((cfg.confirmBeforeModifying || cfg.superviseRun) &&
      (dmTotal (accOf (cleanupClassify store (cfg.confirmBeforeModifying || cfg.superviseRun)
        cfg.itemWhitelist cfg.itemBlacklist cfg.docWhitelist cfg.docBlacklist
        cfg.tagWhitelist cfg.tagBlacklist)).reattached > 0 ||
       dmTotal (accOf (cleanupClassify store (cfg.confirmBeforeModifying || cfg.superviseRun)
        cfg.itemWhitelist cfg.itemBlacklist cfg.docWhitelist cfg.docBlacklist
        cfg.tagWhitelist cfg.tagBlacklist)).removed > 0)) = true
  · simp only [hc, if_true] at hnc ⊢
    by_cases hn : isNo (popInput inputs).1 = true
    · simp [hn]
    · simp only [hn, Bool.false_eq_true, if_false] at hnc ⊢
      exact cleanupFinish_dry nfkd cfg.archiveDocs (normTag cfg.reattachedTag) ops hops
        _ _ _ _ hnc
  · simp only [hc, Bool.false_eq_true, if_false] at hnc ⊢
    exact cleanupFinish_dry nfkd cfg.archiveDocs (normTag cfg.reattachedTag) ops hops
      _ _ _ _ hnc

/-- C6 (witness): the amended equivalence at the concrete C2 store
under the always-succeeding oracle (whose live run is crash-free). -/
theorem c6_amended_witness :
    (cleanup_documents (fun l => l) { baseCfg with dryRun := true } c2store
        (fun _ => true) []).events =
      (cleanup_documents (fun l => l) { baseCfg with dryRun := false } c2store
        (fun _ => true) []).events ∧
    (cleanup_documents (fun l => l) { baseCfg with dryRun := true } c2store
        (fun _ => true) []).gates =
      (cleanup_documents (fun l => l) { baseCfg with dryRun := false } c2store
        (fun _ => true) []).gates ∧
    (cleanup_documents (fun l => l) { baseCfg with dryRun := true } c2store
        (fun _ => true) []).cmds =
      (((cleanup_documents (fun l => l) { baseCfg with dryRun := false } c2store
        (fun _ => true) []).cmds).filter (fun c => !isDeleteCmd c)).map setDry :=
  c6_amended (fun l => l) baseCfg c2store (fun _ => true) [] (fun _ => rfl) (by decide)

/-- C7: the eligibility filter admits a title iff (whitelist empty or
some whitelist term is a case-insensitive substring) and (blacklist
empty or no blacklist term is a case-insensitive substring); on denial
the recorded reason is `"item blacklisted"` exactly when the blacklist
test failed, else `"item not on whitelist"`; and a title denial
short-circuits the tag test — the document gets exactly that one skip
record. -/
theorem c7_filter (wl bl tagWL tagBL skipped : List String) (doc : ItemDetail) :
    ((allowed_by_white_black_lists doc.title wl bl false).1 = true ↔
      (wl = [] ∨ ∃ w ∈ wl, ∃ l r,
        doc.title.toList.map pyLowerChar = l ++ w.toList.map pyLowerChar ++ r)) ∧
    ((allowed_by_white_black_lists doc.title wl bl false).2 = true ↔
      (bl = [] ∨ ∀ b ∈ bl, ∀ l r,
        doc.title.toList.map pyLowerChar ≠ l ++ b.toList.map pyLowerChar ++ r)) ∧
    (wblaDenies (allowed_by_white_black_lists doc.title wl bl false) = false ↔
      ((allowed_by_white_black_lists doc.title wl bl false).1 = true ∧
       (allowed_by_white_black_lists doc.title wl bl false).2 = true)) ∧
    (wblaDenies (allowed_by_white_black_lists doc.title wl bl false) = true →
      filterDoc wl bl tagWL tagBL skipped doc =
        ([Ev.skip (if !(allowed_by_white_black_lists doc.title wl bl false).2
                   then "item blacklisted" else "item not on whitelist") doc.title],
         skipped ++ [doc.id])) := by
  refine ⟨?_, ?_, ?_, ?_⟩
  · simp [allowed_by_white_black_lists, List.isEmpty_iff, List.any_eq_true, pyIn, pySubstr_iff]
  · simp [allowed_by_white_black_lists, List.isEmpty_iff, List.all_eq_true, pyIn,
      pySubstr_eq_false_iff]
  · simp [wblaDenies]
  · intro hd
    simp only [filterDoc, hd, if_true]
    have hmem : (skipped ++ [doc.id]).contains doc.id = true := by simp
    simp [hmem]

/-- C7 (witness): a blacklisted title produces exactly one skip record
with the blacklisted reason and no tag-based denial. -/
theorem c7_witness :
    filterDoc ["a"] ["tax"] [] [] [] c9doc = ([Ev.skip "item blacklisted" "Tax"], ["d9"]) := by
  have h := (c7_filter ["a"] ["tax"] [] [] [] c9doc).2.2.2 (by decide)
  rw [h]
  decide

/-- C8: declining the batch-confirmation gate (in either mode) aborts
the whole mutation phase before any command reaches the store; and
declining one supervised per-record gate turns exactly that reference
into `Skip{user skipped}` without affecting the processing of any
reference before or after it. -/
theorem c8_gates :
    (∀ (nfkd : List Char → List Char) (cfg : CleanCfg) (store : Store)
       (ops : Cmd → Bool) (inputs : List String) (resp : String),
      GateEv.batch resp ∈ (mainRun nfkd cfg store ops inputs).gates →
      isNo resp = true → (mainRun nfkd cfg store ops inputs).cmds = []) ∧
    (∀ (nfkd : List Char → List Char) (cfg : CleanCfg) (store : Store)
       (ops : Cmd → Bool) (inputs : List String) (resp : String),
      GateEv.batch resp ∈ (cleanup_documents nfkd cfg store ops inputs).gates →
      isNo resp = true → (cleanup_documents nfkd cfg store ops inputs).cmds = []) ∧
    (∀ (nfkd : List Char → List Char) (store : Store) (eff : MainEff)
       (itmId itmVid itmName itmLnk : String) (itmTags : List String)
       (refsBefore : List FieldRec) (r : FieldRec) (refsAfter : List FieldRec)
       (pre : List String) (x : String) (post : List String),
      countConsumes store eff refsBefore = pre.length →
      refConsumes store eff r = true →
      (classifyRefs nfkd store eff itmId itmVid itmName itmLnk itmTags
          (refsBefore ++ r :: refsAfter) (pre ++ x :: post) =
        ((classifyRefs nfkd store eff itmId itmVid itmName itmLnk itmTags refsBefore pre).1 ++
          classifyRef nfkd store eff itmId itmVid itmName itmLnk itmTags x r ++
          (classifyRefs nfkd store eff itmId itmVid itmName itmLnk itmTags refsAfter post).1,
         (classifyRefs nfkd store eff itmId itmVid itmName itmLnk itmTags refsBefore pre).2.1 ++
          GateEv.perRef itmName r.value x ::
          (classifyRefs nfkd store eff itmId itmVid itmName itmLnk itmTags refsAfter post).2.1,
         (classifyRefs nfkd store eff itmId itmVid itmName itmLnk itmTags refsAfter post).2.2)) ∧
      (isNo x = true → ∃ docName, classifyRef nfkd store eff itmId itmVid itmName itmLnk
          itmTags x r = [Ev.mskip "user skipped" itmName docName itmLnk])) :=
  ⟨mainRun_batch_decline, cleanup_batch_decline, classifyRefs_decline_local⟩

/-- C8 (witness): concrete declined batch gates in both modes, and a
declined supervised prompt for the second of two references. -/
theorem c8_witness :
    (mainRun (fun l => l) { baseCfg with confirmBeforeModifying := true } c3store
        (fun _ => true) ["n"]).cmds = [] ∧
    (cleanup_documents (fun l => l) { baseCfg with confirmBeforeModifying := true } c2store
        (fun _ => true) ["n"]).cmds = [] ∧
    ((classifyRefs (fun l => l) c8store supEff "i8" "v1" "Jane" "link" []
        ([c8refA] ++ c8refB :: []) (["y"] ++ "n" :: []) =
      ((classifyRefs (fun l => l) c8store supEff "i8" "v1" "Jane" "link" [] [c8refA] ["y"]).1 ++
        classifyRef (fun l => l) c8store supEff "i8" "v1" "Jane" "link" [] "n" c8refB ++
        (classifyRefs (fun l => l) c8store supEff "i8" "v1" "Jane" "link" [] [] []).1,
       (classifyRefs (fun l => l) c8store supEff "i8" "v1" "Jane" "link" [] [c8refA] ["y"]).2.1 ++
        GateEv.perRef "Jane" c8refB.value "n" ::
        (classifyRefs (fun l => l) c8store supEff "i8" "v1" "Jane" "link" [] [] []).2.1,
       (classifyRefs (fun l => l) c8store supEff "i8" "v1" "Jane" "link" [] [] []).2.2)) ∧
     (isNo "n" = true → ∃ docName, classifyRef (fun l => l) c8store supEff "i8" "v1"
        "Jane" "link" [] "n" c8refB = [Ev.mskip "user skipped" "Jane" docName "link"])) :=
  ⟨c8_gates.1 (fun l => l) { baseCfg with confirmBeforeModifying := true } c3store
      (fun _ => true) ["n"] "n" (by decide) (by decide),
   c8_gates.2.1 (fun l => l) { baseCfg with confirmBeforeModifying := true } c2store
      (fun _ => true) ["n"] "n" (by decide) (by decide),
   c8_gates.2.2 (fun l => l) c8store supEff "i8" "v1" "Jane" "link" [] [c8refA] c8refB
      [] ["y"] "n" [] (by decide) (by decide)⟩

/-- C9: `cleanup_documents` is not a deterministic function of its
explicit argument values: the in-place `+=` pollutes the shared default
list objects, so a call with a document whitelist mutates the default
item whitelist, and two later calls with identical (all-default)
arguments classify the same snapshot differently — here the first
all-default call admits the document `"Tax"` while the one after the
polluting call denies it. -/
theorem c9_defaults :
    (cleanupCallLists c9env0 none none (some ["passport"]) none).2.itemWLdef =
      ["passport"] ∧
    (cleanupCallClassify c9store false c9env0 none none none none [] []).1 ≠
      (cleanupCallClassify c9store false
        (cleanupCallClassify c9store false c9env0 none none (some ["passport"]) none [] []).2
        none none none none [] []).1 := by
  constructor <;> decide

/-- C10 (code bug): `sanitize` is documented to keep filenames within
the Windows length limit, but the truncation branch slices the
extension with `ext[254:]` (keeping the tail) instead of `ext[:254]`,
so for `"x." + "b"*599` it returns a 346-character name — longer than
255. -/
theorem c10_code_bug :
    (sanitize (fun l => l) c10input).length = 346 ∧
    255 < (sanitize (fun l => l) c10input).length := by
  constructor <;> decide

end Reattacher
